import Mathlib

/-!
# SlingCraft core: shallow embedding and verification

This file embeds the core of the SlingCraft simulator (`src/game.js`,
`src/transfer-worker.js`) in Lean 4 and proves or refutes the frozen claims
about it.

Conventions:
* JavaScript numbers used for physics are modelled by `ℝ`; the JavaScript
  value `Infinity` produced and compared by the planner's scoring code is
  modelled by `Option ℝ` with `none` standing for `+∞`.
* Frame indices and other integer-valued quantities handled by the main loop
  (the plan registry, the simulation clock) are modelled by `ℤ`/`ℕ`/`ℚ`,
  which keeps that part of the model decidable.
* Indexed `for` loops over arrays become structural recursion over lists that
  carries the loop index explicitly; parallel arrays (`states`/`masses`) are
  zipped.
-/

namespace Sling

/-! ## Constants (`src/game.js` lines 2032-2049, `src/transfer-worker.js` 5-13) -/

/-- Gravitational constant `G = 50.0`. -/
noncomputable def G : ℝ := 50

/-- `MIN_DISTANCE = 10`, the clamp "to prevent singularities". -/
noncomputable def MIN_DISTANCE : ℝ := 10

/-- `CRAFT_ORBITAL_ALTITUDE = 5`. -/
noncomputable def CRAFT_ORBITAL_ALTITUDE : ℝ := 5

/-- `CRAFT_ACCELERATION = 2.5`. -/
noncomputable def CRAFT_ACCELERATION : ℝ := 5 / 2

/-- `PREDICTION_DT = 0.033`, as a real number (physics side). -/
noncomputable def PREDICTION_DT : ℝ := 33 / 1000

/-- `PREDICTION_DT = 0.033`, as a rational (clock / frame-count side). -/
def PREDICTION_DT_Q : ℚ := 33 / 1000

/-- `PREDICTION_FRAMES = Math.ceil(360 / 0.033) = 10910`, the horizon. -/
def PREDICTION_FRAMES : ℤ := ⌈(360 : ℚ) / PREDICTION_DT_Q⌉

lemma PREDICTION_FRAMES_eq : PREDICTION_FRAMES = 10910 := by
  unfold PREDICTION_FRAMES PREDICTION_DT_Q
  rw [Int.ceil_eq_iff]
  norm_num

/-! ## The N-body integrator (`simulateStep`, `src/game.js` 3908-3945)

`simulateStep(states, masses, dt)` maps parallel arrays of body states and
masses to the next states.  The gravity inner loop, for `j ≠ i`:

```js
const dist = Math.sqrt(dx*dx + dy*dy);
const safeDist = Math.max(dist, MIN_DISTANCE);
const acceleration = G * masses[j] / (safeDist * safeDist);
ax += acceleration * (dx / dist);
ay += acceleration * (dy / dist);
```

Note the magnitude uses the clamped `safeDist` but the direction is
normalised by the raw `dist`.
-/

/-- A body state `{x, y, vx, vy}` as carried by the prediction buffer. -/
structure PState where
  x : ℝ
  y : ℝ
  vx : ℝ
  vy : ℝ

/-- One term of the gravity sum of `simulateStep`: contribution of a body at
state `sj` with mass `mj` to the acceleration of a body at state `self`. -/
noncomputable def gravContrib (self sj : PState) (mj : ℝ) : ℝ × ℝ :=
  let dx := sj.x - self.x
  let dy := sj.y - self.y
  let dist := Real.sqrt (dx * dx + dy * dy)
  let safeDist := max dist MIN_DISTANCE
  let acceleration := G * mj / (safeDist * safeDist)
  (acceleration * (dx / dist), acceleration * (dy / dist))

/-- The inner `for (let j = 0; ...)` loop of `simulateStep`: accumulate the
acceleration of body `i` (at state `self`), skipping `j = i`.  `j` is the
index of the head of the remaining `(state, mass)` list. -/
noncomputable def accelLoop (self : PState) (i : ℕ) :
    ℕ → ℝ × ℝ → List (PState × ℝ) → ℝ × ℝ
  | _, acc, [] => acc
  | j, acc, p :: rest =>
      accelLoop self i (j + 1)
        (if i = j then acc
         else
           let c := gravContrib self p.1 p.2
           (acc.1 + c.1, acc.2 + c.2)) rest

/-- Semi-implicit update of `simulateStep`:
`nvx = vx + ax*dt; x' = x + nvx*dt` (same for y). -/
noncomputable def integrate (s : PState) (a : ℝ × ℝ) (dt : ℝ) : PState :=
  let nvx := s.vx + a.1 * dt
  let nvy := s.vy + a.2 * dt
  { x := s.x + nvx * dt, y := s.y + nvy * dt, vx := nvx, vy := nvy }

/-- The outer `states.map((state, i) => ...)` of `simulateStep`, with the
index `i` carried explicitly. -/
noncomputable def stepLoop (pairs : List (PState × ℝ)) (dt : ℝ) :
    ℕ → List PState → List PState
  | _, [] => []
  | i, s :: rest =>
      integrate s (accelLoop s i 0 (0, 0) pairs) dt :: stepLoop pairs dt (i + 1) rest

/-- `simulateStep(states, masses, dt)` (`src/game.js` 3908-3945). -/
noncomputable def simulateStep (states : List PState) (masses : List ℝ)
    (dt : ℝ) : List PState :=
  stepLoop (states.zip masses) dt 0 states

/-! ### The formula claimed by the spec

Modelled from the spec: "For every body i, acceleration
`a_i = Σ_{j≠i} G·m_j·r_ij / max(|r_ij|, MIN_DIST)^3` where `r_ij = p_j − p_i`",
followed by the same semi-implicit update.  This is a second definition,
written from the spec's words, to be compared with `simulateStep` above. -/

/-- One term of the spec's gravity sum: `G·m_j·r_ij / max(|r_ij|, MIN_DIST)^3`. -/
noncomputable def specGravContrib (self sj : PState) (mj : ℝ) : ℝ × ℝ :=
  let dx := sj.x - self.x
  let dy := sj.y - self.y
  let dist := Real.sqrt (dx * dx + dy * dy)
  let r := max dist MIN_DISTANCE
  (G * mj * dx / (r * r * r), G * mj * dy / (r * r * r))

/-- Spec-side acceleration sum, same loop structure as `accelLoop`. -/
noncomputable def specAccelLoop (self : PState) (i : ℕ) :
    ℕ → ℝ × ℝ → List (PState × ℝ) → ℝ × ℝ
  | _, acc, [] => acc
  | j, acc, p :: rest =>
      specAccelLoop self i (j + 1)
        (if i = j then acc
         else
           let c := specGravContrib self p.1 p.2
           (acc.1 + c.1, acc.2 + c.2)) rest

/-- Spec-side step, same outer structure as `stepLoop`. -/
noncomputable def specStepLoop (pairs : List (PState × ℝ)) (dt : ℝ) :
    ℕ → List PState → List PState
  | _, [] => []
  | i, s :: rest =>
      integrate s (specAccelLoop s i 0 (0, 0) pairs) dt ::
        specStepLoop pairs dt (i + 1) rest

/-- The integrator step exactly as the spec words it. -/
noncomputable def specStep (states : List PState) (masses : List ℝ)
    (dt : ℝ) : List PState :=
  specStepLoop (states.zip masses) dt 0 states

instance : Inhabited PState := ⟨⟨0, 0, 0, 0⟩⟩

/-- Distance between two body states, oriented as the code computes it
(`dx = sj.x - self.x`). -/
noncomputable def pdist (self sj : PState) : ℝ :=
  Real.sqrt ((sj.x - self.x) * (sj.x - self.x) + (sj.y - self.y) * (sj.y - self.y))

lemma gravContrib_eq_spec (self sj : PState) (mj : ℝ)
    (h : MIN_DISTANCE ≤ pdist self sj) :
    gravContrib self sj mj = specGravContrib self sj mj := by
  have hmax : max (Real.sqrt ((sj.x - self.x) * (sj.x - self.x) +
      (sj.y - self.y) * (sj.y - self.y))) MIN_DISTANCE =
      Real.sqrt ((sj.x - self.x) * (sj.x - self.x) +
      (sj.y - self.y) * (sj.y - self.y)) := max_eq_left h
  simp only [gravContrib, specGravContrib, hmax, Prod.mk.injEq]
  constructor <;> ring

lemma accelLoop_eq_spec (self : PState) (i : ℕ) :
    ∀ (pairs : List (PState × ℝ)) (j₀ : ℕ) (acc : ℝ × ℝ),
    (∀ (j : ℕ) (hj : j < pairs.length), j₀ + j ≠ i →
      MIN_DISTANCE ≤ pdist self (pairs.get ⟨j, hj⟩).1) →
    accelLoop self i j₀ acc pairs = specAccelLoop self i j₀ acc pairs := by
  intro pairs
  induction pairs with
  | nil => intro j₀ acc _; rfl
  | cons p rest ih =>
    intro j₀ acc h
    have htail : ∀ (j : ℕ) (hj : j < rest.length), (j₀ + 1) + j ≠ i →
        MIN_DISTANCE ≤ pdist self (rest.get ⟨j, hj⟩).1 := by
      intro j hj hne
      have := h (j + 1) (by simpa using Nat.succ_lt_succ hj)
        (by omega)
      simpa using this
    by_cases hij : i = j₀
    · simp only [accelLoop, specAccelLoop, if_pos hij]
      exact ih (j₀ + 1) acc htail
    · have hd : MIN_DISTANCE ≤ pdist self p.1 := by
        have := h 0 (by simp) (by omega)
        simpa using this
      simp only [accelLoop, specAccelLoop, if_neg hij,
        gravContrib_eq_spec self p.1 p.2 hd]
      exact ih (j₀ + 1) _ htail

lemma stepLoop_eq_spec (pairs : List (PState × ℝ)) (dt : ℝ) :
    ∀ (rest : List PState) (i₀ : ℕ),
    (∀ (k : ℕ) (hk : k < rest.length) (j : ℕ) (hj : j < pairs.length),
      j ≠ i₀ + k →
      MIN_DISTANCE ≤ pdist (rest.get ⟨k, hk⟩) (pairs.get ⟨j, hj⟩).1) →
    stepLoop pairs dt i₀ rest = specStepLoop pairs dt i₀ rest := by
  intro rest
  induction rest with
  | nil => intro i₀ _; rfl
  | cons s srest ih =>
    intro i₀ h
    have hhead : ∀ (j : ℕ) (hj : j < pairs.length), 0 + j ≠ i₀ →
        MIN_DISTANCE ≤ pdist s (pairs.get ⟨j, hj⟩).1 := by
      intro j hj hne
      have := h 0 (by simp) j hj (by omega)
      simpa using this
    have htail : ∀ (k : ℕ) (hk : k < srest.length) (j : ℕ)
        (hj : j < pairs.length), j ≠ (i₀ + 1) + k →
        MIN_DISTANCE ≤ pdist (srest.get ⟨k, hk⟩) (pairs.get ⟨j, hj⟩).1 := by
      intro k hk j hj hne
      have := h (k + 1) (by simpa using Nat.succ_lt_succ hk) j hj (by omega)
      simpa using this
    simp only [stepLoop, specStepLoop,
      accelLoop_eq_spec s i₀ pairs 0 (0, 0) hhead, ih (i₀ + 1) htail]

/-- C1 (amended): on states whose pairwise distances are all at least
`MIN_DISTANCE`, one `simulateStep` is exactly a step of the spec's formula
`a_i = Σ_{j≠i} G·m_j·r_ij / max(|r_ij|, MIN_DIST)^3` followed by the
semi-implicit update `v' = v + a·dt`, `p' = p + v'·dt`.  (Below
`MIN_DISTANCE` the code instead clamps only the magnitude and divides the
direction by the raw distance, see `simulateStep_ne_specStep`.) -/
theorem simulateStep_eq_specStep (states : List PState) (masses : List ℝ)
    (dt : ℝ)
    (h : ∀ (i j : ℕ) (hi : i < states.length) (hj : j < states.length),
      i ≠ j →
      MIN_DISTANCE ≤ pdist (states.get ⟨i, hi⟩) (states.get ⟨j, hj⟩)) :
    simulateStep states masses dt = specStep states masses dt := by
  unfold simulateStep specStep
  apply stepLoop_eq_spec
  intro k hk j hj hne
  have hjs : j < states.length := lt_of_lt_of_le hj
    (by simp only [List.length_zip]
        exact min_le_left states.length masses.length)
  have hget : ((states.zip masses).get ⟨j, hj⟩).1 = states.get ⟨j, hjs⟩ := by
    simp [List.get_eq_getElem, List.getElem_zip]
  rw [hget]
  exact h k j hk hjs (by omega)

lemma sqrt_twenty_five : Real.sqrt 25 = 5 := by
  rw [show (25 : ℝ) = 5 ^ 2 by norm_num]
  exact Real.sqrt_sq (by norm_num)

/-- C1 counterexample: with two bodies `5 < MIN_DISTANCE` apart,
`simulateStep` does not compute the acceleration the claim states.  The code
gives `|a| = G·m/MIN_DIST² = 0.5` (clamped magnitude, true direction) where
the claim's formula gives `G·m·5/MIN_DIST³ = 0.25`. -/
theorem simulateStep_ne_specStep :
    simulateStep [⟨0, 0, 0, 0⟩, ⟨5, 0, 0, 0⟩] [1, 1] 1 ≠
      specStep [⟨0, 0, 0, 0⟩, ⟨5, 0, 0, 0⟩] [1, 1] 1 := by
  intro h
  have hvx := congrArg (fun l => (l.headI).vx) h
  simp only [simulateStep, specStep, List.zip, List.zipWith, stepLoop,
    specStepLoop, accelLoop, specAccelLoop, gravContrib, specGravContrib,
    integrate, List.headI] at hvx
  norm_num [G] at hvx
  rw [sqrt_twenty_five] at hvx
  norm_num [MIN_DISTANCE, sup_eq_max, max_def] at hvx

/-- Witness for `simulateStep_eq_specStep`: two bodies 20 apart. -/
theorem simulateStep_eq_specStep_witness :
    simulateStep [⟨0, 0, 0, 0⟩, ⟨20, 0, 0, 0⟩] [1, 1] 1 =
      specStep [⟨0, 0, 0, 0⟩, ⟨20, 0, 0, 0⟩] [1, 1] 1 := by
  apply simulateStep_eq_specStep
  intro i j hi hj hne
  have h400 : Real.sqrt 400 = 20 := by
    rw [show (400 : ℝ) = 20 ^ 2 by norm_num]
    exact Real.sqrt_sq (by norm_num)
  simp only [List.length_cons, List.length_nil] at hi hj
  interval_cases i <;> interval_cases j <;> first
    | exact absurd rfl hne
    | norm_num [pdist, MIN_DISTANCE, h400, List.get]

/-! ## Division-checked integrator step (claim C6)

Every division of the gravity computation of `simulateStep` (and of the
structurally identical `calculateGravity`, `src/game.js` 2638-2662) routed
through an explicit definedness check: `safeDiv a b` is `none` exactly when
the code would divide by zero.  The three divisions per body pair are
`G * masses[j] / (safeDist * safeDist)`, `dx / dist` and `dy / dist`. -/

/-- `a / b` with an explicit definedness check: `none` when `b = 0`. -/
noncomputable def safeDiv (a b : ℝ) : Option ℝ :=
  if b = 0 then none else some (a / b)

/-- Division-checked form of `gravContrib`. -/
noncomputable def gravContribChecked (self sj : PState) (mj : ℝ) :
    Option (ℝ × ℝ) :=
  let dx := sj.x - self.x
  let dy := sj.y - self.y
  let dist := Real.sqrt (dx * dx + dy * dy)
  let safeDist := max dist MIN_DISTANCE
  match safeDiv (G * mj) (safeDist * safeDist), safeDiv dx dist,
      safeDiv dy dist with
  | some acceleration, some ux, some uy =>
      some (acceleration * ux, acceleration * uy)
  | _, _, _ => none

/-- Division-checked form of `accelLoop`. -/
noncomputable def accelLoopChecked (self : PState) (i : ℕ) :
    ℕ → ℝ × ℝ → List (PState × ℝ) → Option (ℝ × ℝ)
  | _, acc, [] => some acc
  | j, acc, p :: rest =>
      if i = j then accelLoopChecked self i (j + 1) acc rest
      else
        match gravContribChecked self p.1 p.2 with
        | some c => accelLoopChecked self i (j + 1) (acc.1 + c.1, acc.2 + c.2) rest
        | none => none

/-- Division-checked form of `stepLoop`. -/
noncomputable def stepLoopChecked (pairs : List (PState × ℝ)) (dt : ℝ) :
    ℕ → List PState → Option (List PState)
  | _, [] => some []
  | i, s :: rest =>
      match accelLoopChecked s i 0 (0, 0) pairs,
          stepLoopChecked pairs dt (i + 1) rest with
      | some a, some l => some (integrate s a dt :: l)
      | _, _ => none

/-- Division-checked `simulateStep`: `none` iff some division of the gravity
computation has a zero denominator. -/
noncomputable def simulateStepChecked (states : List PState)
    (masses : List ℝ) (dt : ℝ) : Option (List PState) :=
  stepLoopChecked (states.zip masses) dt 0 states

lemma gravContribChecked_eq (self sj : PState) (mj : ℝ)
    (h : pdist self sj ≠ 0) :
    gravContribChecked self sj mj = some (gravContrib self sj mj) := by
  have hsafe : (max (Real.sqrt ((sj.x - self.x) * (sj.x - self.x) +
      (sj.y - self.y) * (sj.y - self.y))) MIN_DISTANCE) *
      (max (Real.sqrt ((sj.x - self.x) * (sj.x - self.x) +
      (sj.y - self.y) * (sj.y - self.y))) MIN_DISTANCE) ≠ 0 := by
    have h10 : MIN_DISTANCE ≤ max (Real.sqrt ((sj.x - self.x) * (sj.x - self.x)
        + (sj.y - self.y) * (sj.y - self.y))) MIN_DISTANCE := le_max_right _ _
    have hpos : (0 : ℝ) < max (Real.sqrt ((sj.x - self.x) * (sj.x - self.x)
        + (sj.y - self.y) * (sj.y - self.y))) MIN_DISTANCE :=
      lt_of_lt_of_le (by norm_num [MIN_DISTANCE]) h10
    positivity
  have hdist : Real.sqrt ((sj.x - self.x) * (sj.x - self.x) +
      (sj.y - self.y) * (sj.y - self.y)) ≠ 0 := h
  simp only [gravContribChecked, gravContrib, safeDiv, if_neg hsafe,
    if_neg hdist]

lemma accelLoopChecked_eq (self : PState) (i : ℕ) :
    ∀ (pairs : List (PState × ℝ)) (j₀ : ℕ) (acc : ℝ × ℝ),
    (∀ (j : ℕ) (hj : j < pairs.length), j₀ + j ≠ i →
      pdist self (pairs.get ⟨j, hj⟩).1 ≠ 0) →
    accelLoopChecked self i j₀ acc pairs =
      some (accelLoop self i j₀ acc pairs) := by
  intro pairs
  induction pairs with
  | nil => intro j₀ acc _; rfl
  | cons p rest ih =>
    intro j₀ acc h
    have htail : ∀ (j : ℕ) (hj : j < rest.length), (j₀ + 1) + j ≠ i →
        pdist self (rest.get ⟨j, hj⟩).1 ≠ 0 := by
      intro j hj hne
      have := h (j + 1) (by simpa using Nat.succ_lt_succ hj) (by omega)
      simpa using this
    by_cases hij : i = j₀
    · simp only [accelLoopChecked, accelLoop, if_pos hij]
      exact ih (j₀ + 1) acc htail
    · have hd : pdist self p.1 ≠ 0 := by
        have := h 0 (by simp) (by omega)
        simpa using this
      simp only [accelLoopChecked, accelLoop, if_neg hij,
        gravContribChecked_eq self p.1 p.2 hd]
      exact ih (j₀ + 1) _ htail

lemma stepLoopChecked_eq (pairs : List (PState × ℝ)) (dt : ℝ) :
    ∀ (rest : List PState) (i₀ : ℕ),
    (∀ (k : ℕ) (hk : k < rest.length) (j : ℕ) (hj : j < pairs.length),
      j ≠ i₀ + k → pdist (rest.get ⟨k, hk⟩) (pairs.get ⟨j, hj⟩).1 ≠ 0) →
    stepLoopChecked pairs dt i₀ rest = some (stepLoop pairs dt i₀ rest) := by
  intro rest
  induction rest with
  | nil => intro i₀ _; rfl
  | cons s srest ih =>
    intro i₀ h
    have hhead : ∀ (j : ℕ) (hj : j < pairs.length), 0 + j ≠ i₀ →
        pdist s (pairs.get ⟨j, hj⟩).1 ≠ 0 := by
      intro j hj hne
      have := h 0 (by simp) j hj (by omega)
      simpa using this
    have htail : ∀ (k : ℕ) (hk : k < srest.length) (j : ℕ)
        (hj : j < pairs.length), j ≠ (i₀ + 1) + k →
        pdist (srest.get ⟨k, hk⟩) (pairs.get ⟨j, hj⟩).1 ≠ 0 := by
      intro k hk j hj hne
      have := h (k + 1) (by simpa using Nat.succ_lt_succ hk) j hj (by omega)
      simpa using this
    simp only [stepLoopChecked, stepLoop,
      accelLoopChecked_eq s i₀ pairs 0 (0, 0) hhead, ih (i₀ + 1) htail]

/-- C6 (amended): for states in which any two distinct bodies are at nonzero
distance, every division of the gravity computation is well-defined and the
checked step agrees with `simulateStep`.  The `MIN_DISTANCE` clamp alone does
not suffice: it protects only the magnitude `G·m/safeDist²`, while the
direction `dx/dist, dy/dist` divides by the unclamped distance (see
`simulateStepChecked_div_by_zero` for coincident bodies). -/
theorem simulateStepChecked_eq_some (states : List PState) (masses : List ℝ)
    (dt : ℝ)
    (h : ∀ (i j : ℕ) (hi : i < states.length) (hj : j < states.length),
      i ≠ j → pdist (states.get ⟨i, hi⟩) (states.get ⟨j, hj⟩) ≠ 0) :
    simulateStepChecked states masses dt = some (simulateStep states masses dt) := by
  unfold simulateStepChecked simulateStep
  apply stepLoopChecked_eq
  intro k hk j hj hne
  have hjs : j < states.length := lt_of_lt_of_le hj
    (by simp only [List.length_zip]
        exact min_le_left states.length masses.length)
  have hget : ((states.zip masses).get ⟨j, hj⟩).1 = states.get ⟨j, hjs⟩ := by
    simp [List.get_eq_getElem, List.getElem_zip]
  rw [hget]
  exact h k j hk hjs (by omega)

lemma gravContribChecked_same (self : PState) (mj : ℝ) :
    gravContribChecked self self mj = none := by
  unfold gravContribChecked safeDiv
  simp only [sub_self, mul_zero, zero_mul, add_zero, zero_add, Real.sqrt_zero]
  rw [max_eq_right (by norm_num [MIN_DISTANCE] : (0 : ℝ) ≤ MIN_DISTANCE)]
  rw [if_neg (by norm_num [MIN_DISTANCE] :
    ¬(MIN_DISTANCE * MIN_DISTANCE = (0 : ℝ)))]
  simp

/-- C6 counterexample: two bodies at exactly the same position make the
direction normalisation `dx / dist` divide by zero — the checked evaluator
rejects the input, refuting "no division-by-zero is possible". -/
theorem simulateStepChecked_div_by_zero :
    simulateStepChecked [⟨0, 0, 0, 0⟩, ⟨0, 0, 0, 0⟩] [1, 1] 1 = none := by
  unfold simulateStepChecked
  simp [List.zip, List.zipWith, stepLoopChecked, accelLoopChecked,
    gravContribChecked_same]

/-- Witness for `simulateStepChecked_eq_some`: two distinct positions, closer
than `MIN_DISTANCE` — the divisions are still all well-defined. -/
theorem simulateStepChecked_eq_some_witness :
    simulateStepChecked [⟨0, 0, 0, 0⟩, ⟨3, 0, 0, 0⟩] [1, 1] 1 =
      some (simulateStep [⟨0, 0, 0, 0⟩, ⟨3, 0, 0, 0⟩] [1, 1] 1) := by
  apply simulateStepChecked_eq_some
  intro i j hi hj hne
  simp only [List.length_cons, List.length_nil] at hi hj
  have h9 : ((0 : ℝ) : ℝ) < 9 := by norm_num
  interval_cases i <;> interval_cases j <;> first
    | exact absurd rfl hne
    | (norm_num [pdist, List.get, Real.sqrt_ne_zero'])

/-! ## Craft capture (claim C5) — `updatePhysics`, `src/game.js` 2737-2805

On each buffer shift, a free craft pops the head of its trajectory buffer and
adopts it; when the buffer has just become empty and a destination body is
set, the craft is captured into orbit around the destination. -/

/-- `Math.atan2 y x`, via the complex argument (both have range `(-π, π]`,
with `atan2 0 0 = 0`). -/
noncomputable def atan2 (y x : ℝ) : ℝ := Complex.arg ⟨x, y⟩

/-- A body as the capture code reads it. -/
structure BodyR where
  x : ℝ
  y : ℝ
  vx : ℝ
  vy : ℝ
  mass : ℝ
  radius : ℝ

/-- `correctionParams {angle, duration, startFrame}` attached to a craft. -/
structure CorrectionR where
  angle : ℝ
  duration : ℕ
  startFrame : ℕ

/-- A craft trajectory-buffer frame `{x, y, vx, vy, isAccelerating}`. -/
structure CFrameR where
  x : ℝ
  y : ℝ
  vx : ℝ
  vy : ℝ
  isAccelerating : Bool

/-- Craft state tag: `'orbiting'` / `'free'`. -/
inductive CraftMode
  | orbiting
  | free
deriving DecidableEq

/-- The craft fields touched by the per-shift pop/capture code. -/
structure CraftR where
  state : CraftMode
  x : ℝ
  y : ℝ
  vx : ℝ
  vy : ℝ
  isAccelerating : Bool
  isCorrecting : Bool
  trajectoryBuffer : List CFrameR
  correctionParams : Option CorrectionR
  flightFrame : ℕ
  destinationBody : Option BodyR
  insertionFrame : ℕ
  launchedFromBody : Option BodyR
  escapeVelocity : ℝ
  parentBody : Option BodyR
  orbitalAltitude : ℝ
  orbitalAngle : ℝ

/-- One shift-event step of a craft (`src/game.js` 2738-2805): a free craft
with a nonempty trajectory buffer pops the head frame, adopts it, updates the
correction flag and flight frame, and — if the buffer just became empty and a
destination is set — is captured into orbit around the destination. -/
noncomputable def craftShiftStep (craft : CraftR) : CraftR :=
  match craft.state, craft.trajectoryBuffer with
  | CraftMode.free, craftState :: restBuffer =>
      let c1 := { craft with
        trajectoryBuffer := restBuffer,
        x := craftState.x, y := craftState.y,
        vx := craftState.vx, vy := craftState.vy,
        isAccelerating := craftState.isAccelerating }
      let c2 :=
        match c1.correctionParams with
        | some params =>
            { c1 with isCorrecting :=
                decide (params.startFrame ≤ c1.flightFrame) &&
                decide (c1.flightFrame < params.startFrame + params.duration) }
        | none => { c1 with isCorrecting := false }
      let c3 := { c2 with flightFrame := c2.flightFrame + 1 }
      match restBuffer, c3.destinationBody with
      | [], some destBody =>
          let dx := c3.x - destBody.x
          let dy := c3.y - destBody.y
          let orbitalAngle := atan2 dy dx
          let orbitRadius := destBody.radius + CRAFT_ORBITAL_ALTITUDE
          let orbitalSpeed := Real.sqrt (G * destBody.mass / orbitRadius)
          { c3 with
            state := CraftMode.orbiting,
            parentBody := some destBody,
            orbitalAltitude := CRAFT_ORBITAL_ALTITUDE,
            orbitalAngle := orbitalAngle,
            vx := destBody.vx - orbitalSpeed * Real.sin orbitalAngle,
            vy := destBody.vy + orbitalSpeed * Real.cos orbitalAngle,
            x := destBody.x + orbitRadius * Real.cos orbitalAngle,
            y := destBody.y + orbitRadius * Real.sin orbitalAngle,
            destinationBody := none,
            insertionFrame := 0,
            correctionParams := none,
            isCorrecting := false,
            isAccelerating := false,
            launchedFromBody := none,
            escapeVelocity := 0,
            flightFrame := 0 }
      | _, _ => c3
  | _, _ => craft

/-- C5: when a free craft's trajectory buffer becomes empty on this shift
(exactly one frame left) and a destination is set, the craft enters orbit
around the destination with altitude `CRAFT_ORBITAL_ALT = 5`: its angle is
the `atan2` of its (popped) offset from the destination, its position is
snapped to `dest.pos + (R+5)·(cos θ, sin θ)`, its velocity is
`dest.vel + tangent·sqrt(G·m/(R+5))`, and correction, destination and
escape-boost state are cleared. -/
theorem craft_capture (c : CraftR) (d : BodyR) (f : CFrameR) :
    let c' := craftShiftStep
      { c with state := CraftMode.free, trajectoryBuffer := [f],
               destinationBody := some d }
    let θ := atan2 (f.y - d.y) (f.x - d.x)
    let r := d.radius + 5
    c'.state = CraftMode.orbiting ∧
    c'.parentBody = some d ∧
    c'.orbitalAltitude = 5 ∧
    c'.orbitalAngle = θ ∧
    c'.x = d.x + r * Real.cos θ ∧
    c'.y = d.y + r * Real.sin θ ∧
    c'.vx = d.vx - Real.sqrt (G * d.mass / r) * Real.sin θ ∧
    c'.vy = d.vy + Real.sqrt (G * d.mass / r) * Real.cos θ ∧
    c'.trajectoryBuffer = [] ∧
    c'.correctionParams = none ∧
    c'.destinationBody = none ∧
    c'.isCorrecting = false ∧
    c'.isAccelerating = false ∧
    c'.launchedFromBody = none ∧
    c'.escapeVelocity = 0 ∧
    c'.flightFrame = 0 := by
  cases hcp : c.correctionParams <;>
    simp [craftShiftStep, hcp, CRAFT_ORBITAL_ALTITUDE]

/-! ## The plan registry and transfer bookkeeping (claims C2, C3, C9, C10)

Main-loop side model (`src/game.js` 3456-3904).  JavaScript numbers that the
registry merely stores, copies and compares are modelled by `ℚ`; the value
`Infinity` that scores and `transferBestArrivalFrame` can take is modelled by
`Option ℚ` / `Option ℤ` with `none` for `+∞`.  This side of the model is
fully decidable. -/

/-- A score that may be `Infinity` (`none`). -/
abbrev QScore := Option ℚ

/-- JavaScript `a < b` on scores, where `none` is `+∞`. -/
def qScoreLt (a b : QScore) : Bool :=
  match a, b with
  | none, _ => false
  | some _, none => true
  | some x, some y => decide (x < y)

/-- A correction burn `{angle, duration, startFrame}` as carried by results
and registry entries (`startFrame` is launch-relative). -/
structure QCorrection where
  angle : ℚ
  duration : ℚ
  startFrame : ℚ
deriving DecidableEq

/-- A craft trajectory frame as carried by results (opaque to the registry). -/
structure QFrame where
  x : ℚ
  y : ℚ
  vx : ℚ
  vy : ℚ
  isAccelerating : Bool
deriving DecidableEq

/-- A planner result as received from a worker: `launchFrame` and
`arrivalFrame` are snapshot-relative, `insertionFrame` trajectory-relative,
`correction.startFrame` launch-relative. -/
structure QResult where
  launchFrame : ℤ
  arrivalFrame : ℤ
  score : QScore
  trajectory : List QFrame
  insertionFrame : ℤ
  correction : Option QCorrection
deriving DecidableEq

/-- An entry of the `acceptableTrajectories` list. -/
structure QEntry where
  launchFrame : ℤ
  arrivalFrame : ℤ
  score : QScore
  trajectory : List QFrame
  insertionFrame : ℤ
  sampleOffset : ℤ
  correction : Option QCorrection
deriving DecidableEq

/-- `TRANSFER_SEARCH_MIN_FRAMES = Math.ceil(5 / 0.033) = 152`. -/
def TRANSFER_SEARCH_MIN_FRAMES : ℤ := ⌈(5 : ℚ) / PREDICTION_DT_Q⌉

/-- The `findIndex`/`splice` insertion of `addAcceptableTrajectory`
(`src/game.js` 3780-3786): insert before the first entry whose
`arrivalFrame` is strictly greater. -/
def insertByArrival (e : QEntry) : List QEntry → List QEntry
  | [] => [e]
  | t :: ts =>
      if e.arrivalFrame < t.arrivalFrame then e :: t :: ts
      else t :: insertByArrival e ts

/-- `addAcceptableTrajectory(result)` (`src/game.js` 3754-3787), with the
globals `bufferShiftsSinceInit` and `sampleOffset` passed explicitly. -/
def addAcceptableTrajectory (shifts sampleOffset : ℤ)
    (acceptable : List QEntry) (result : QResult) : List QEntry :=
  let adjustedLaunchFrame := result.launchFrame - shifts
  let adjustedArrivalFrame := result.arrivalFrame - shifts
  if adjustedLaunchFrame ≤ 0 then acceptable
  else
    insertByArrival
      { launchFrame := adjustedLaunchFrame,
        arrivalFrame := adjustedArrivalFrame,
        score := result.score,
        trajectory := result.trajectory,
        insertionFrame := result.insertionFrame,
        sampleOffset := sampleOffset,
        correction := result.correction } acceptable

/-- The acceptable-list part of `updateAcceptableTrajectoriesOnShift`
(`src/game.js` 3826-3837): decrement the buffer-relative indices of every
entry and remove entries whose launch time has passed. -/
def updateAcceptableTrajectoriesOnShift (l : List QEntry) : List QEntry :=
  (l.map fun e =>
    { e with launchFrame := e.launchFrame - 1,
             arrivalFrame := e.arrivalFrame - 1 }).filter
    fun e => 0 < e.launchFrame

/-- Transfer UI state (`transferState`). -/
inductive TState
  | noneS
  | selectingDestination
  | searching
  | ready
  | scheduled
deriving DecidableEq

/-- A `transferCache` entry (`src/game.js` 3700-3713). -/
structure QCache where
  score : QScore
  launchFrame : ℤ
  arrivalFrame : Option ℤ
  trajectory : Option (List QFrame)
  insertionFrame : ℤ
  sampleOffset : ℤ
  correction : QCorrection
deriving DecidableEq

/-- JavaScript `Map.get` on an association list. -/
def mapGet {K V : Type} [DecidableEq K] : List (K × V) → K → Option V
  | [], _ => none
  | (k', v') :: rest, k => if k' = k then some v' else mapGet rest k

/-- JavaScript `Map.set` on an association list (updates in place, else
appends). -/
def mapSet {K V : Type} [DecidableEq K] : List (K × V) → K → V → List (K × V)
  | [], k, v => [(k, v)]
  | (k', v') :: rest, k, v =>
      if k' = k then (k, v) :: rest else (k', v') :: mapSet rest k v

/-- The module-level transfer variables of `src/game.js` that the registry,
cache and scheduling code read and write.  `transferKey` is
`some (sourceIndex, destIndex)` when both `transferCraft` (with its parent)
and `transferDestinationBody` are set (`getTransferCacheKey`). -/
structure MainState where
  transferState : TState
  acceptableTrajectories : List QEntry
  transferScheduledFrame : ℤ
  bufferShiftsSinceInit : ℤ
  sampleOffset : ℤ
  searchedUpToFrame : ℤ
  initialSearchComplete : Bool
  searchGeneration : ℤ
  nextBatchStart : ℤ
  pendingBatches : ℤ
  transferSearchFrame : ℤ
  transferBestScore : QScore
  transferBestFrame : ℤ
  transferBestTrajectory : Option (List QFrame)
  transferBestArrivalFrame : Option ℤ
  transferInsertionFrame : ℤ
  transferTrajectorySampleOffset : ℤ
  correctionAngle : ℚ
  correctionDuration : ℚ
  correctionStartFrame : ℚ
  transferKey : Option (ℤ × ℤ)
  transferCache : List ((ℤ × ℤ) × QCache)
deriving DecidableEq

/-- `updateBestFromList()` (`src/game.js` 3790-3823); the `Bool` is its
return value. -/
def updateBestFromList (st : MainState) : MainState × Bool :=
  match st.acceptableTrajectories with
  | [] =>
      ({ st with transferBestScore := none,
                 transferBestFrame := -1,
                 transferBestTrajectory := none,
                 transferBestArrivalFrame := none,
                 transferInsertionFrame := 0,
                 correctionAngle := 0,
                 correctionDuration := 0,
                 correctionStartFrame := 0 }, false)
  | best :: _ =>
      let st' := { st with
        transferBestScore := best.score,
        transferBestFrame := best.launchFrame,
        transferBestTrajectory := some best.trajectory,
        transferBestArrivalFrame := some best.arrivalFrame,
        transferInsertionFrame := best.insertionFrame,
        transferTrajectorySampleOffset := best.sampleOffset }
      match best.correction with
      | some c =>
          ({ st' with correctionAngle := c.angle,
                      correctionDuration := c.duration,
                      correctionStartFrame := c.startFrame }, true)
      | none =>
          ({ st' with correctionAngle := 0,
                      correctionDuration := 0,
                      correctionStartFrame := 0 }, true)

/-- `saveToTransferCache()` (`src/game.js` 3693-3714): only acceptable
results (finite `transferBestArrivalFrame`) with a non-negative best frame
are cached, under the (source, destination) key. -/
def saveToTransferCache (st : MainState) : MainState :=
  match st.transferKey with
  | none => st
  | some key =>
      if st.transferBestFrame < 0 then st
      else
        match st.transferBestArrivalFrame with
        | none => st
        | some arrival =>
            { st with transferCache := (mapSet st.transferCache key
                { score := st.transferBestScore,
                  launchFrame := st.transferBestFrame,
                  arrivalFrame := some arrival,
                  trajectory := st.transferBestTrajectory,
                  insertionFrame := st.transferInsertionFrame,
                  sampleOffset := st.transferTrajectorySampleOffset,
                  correction := { angle := st.correctionAngle,
                                  duration := st.correctionDuration,
                                  startFrame := st.correctionStartFrame } }) }

/-- `restoreFromTransferCache()` (`src/game.js` 3717-3738).  Note: this
function is defined in the source but never called from anywhere. -/
def restoreFromTransferCache (st : MainState) : MainState × Bool :=
  match st.transferKey with
  | none => (st, false)
  | some key =>
      match mapGet st.transferCache key with
      | none => (st, false)
      | some cached =>
          if TRANSFER_SEARCH_MIN_FRAMES < cached.launchFrame then
            ({ st with transferBestScore := cached.score,
                       transferBestFrame := cached.launchFrame,
                       transferBestArrivalFrame := cached.arrivalFrame,
                       transferBestTrajectory := cached.trajectory,
                       transferInsertionFrame := cached.insertionFrame,
                       transferTrajectorySampleOffset := cached.sampleOffset,
                       correctionAngle := cached.correction.angle,
                       correctionDuration := cached.correction.duration,
                       correctionStartFrame := cached.correction.startFrame },
             true)
          else (st, false)

/-- `updateTransferCacheOnShift()` (`src/game.js` 3741-3751). -/
def updateTransferCacheOnShift (st : MainState) : MainState :=
  { st with transferCache :=
      ((st.transferCache.map (fun kv =>
        (kv.1, { kv.2 with launchFrame := kv.2.launchFrame - 1,
                           arrivalFrame := kv.2.arrivalFrame.map (· - 1) }))).filter
        (fun kv => 0 < kv.2.launchFrame)) }

/-- `startTransferSearch()` (`src/game.js` 3847-3873).  The final
`startParallelSearch()` call re-sends the buffer to the workers and resets
`bufferShiftsSinceInit` (`src/game.js` 3624); worker messaging itself is
outside the state. -/
def startTransferSearch (st : MainState) : MainState :=
  { st with transferState := TState.searching,
            transferSearchFrame := TRANSFER_SEARCH_MIN_FRAMES,
            acceptableTrajectories := [],
            searchedUpToFrame := 0,
            initialSearchComplete := false,
            transferBestScore := none,
            transferBestFrame := -1,
            transferBestTrajectory := none,
            transferTrajectorySampleOffset := 0,
            transferInsertionFrame := 0,
            transferBestArrivalFrame := none,
            correctionAngle := 0,
            correctionDuration := 0,
            correctionStartFrame := 0,
            searchGeneration := st.searchGeneration + 1,
            nextBatchStart := TRANSFER_SEARCH_MIN_FRAMES,
            pendingBatches := 0,
            bufferShiftsSinceInit := 0 }

/-- A worker batch result as received by `handleWorkerMessage`. -/
structure QBatchResult where
  acceptableResults : List QResult
  bestNonAcceptable : Option QResult
deriving DecidableEq

/-- The state changes of `handleWorkerMessage` for a current-generation
`result` message (`src/game.js` 3491-3553), with the batch's `frameEnd`
passed in.  Dispatching of further batches is worker messaging, outside the
state. -/
def ingestResult (st₀ : MainState) (batch : QBatchResult) (batchEnd : ℤ) :
    MainState :=
  let st := { st₀ with pendingBatches := st₀.pendingBatches - 1 }
  let adjustedBatchEnd := batchEnd - st.bufferShiftsSinceInit
  let st :=
    if st.searchedUpToFrame < adjustedBatchEnd then
      { st with searchedUpToFrame := adjustedBatchEnd }
    else st
  if batch.acceptableResults ≠ [] then
    let st := { st with acceptableTrajectories :=
        (batch.acceptableResults.foldl
          (addAcceptableTrajectory st.bufferShiftsSinceInit st.sampleOffset)
          st.acceptableTrajectories) }
    let st := (updateBestFromList st).1
    let st :=
      match st.transferState, st.acceptableTrajectories with
      | TState.scheduled, h :: _ => { st with transferScheduledFrame := h.launchFrame }
      | _, _ => st
    let st :=
      if st.transferState = TState.searching then
        { st with transferState := TState.ready }
      else st
    saveToTransferCache st
  else
    match st.acceptableTrajectories, batch.bestNonAcceptable with
    | [], some result =>
        let adjustedLaunchFrame := result.launchFrame - st.bufferShiftsSinceInit
        if 0 < adjustedLaunchFrame ∧
            (st.transferBestFrame < 0 ∨
              qScoreLt result.score st.transferBestScore) then
          let st' := { st with
            transferBestScore := result.score,
            transferBestFrame := adjustedLaunchFrame,
            transferBestTrajectory := some result.trajectory,
            transferInsertionFrame := result.insertionFrame,
            transferBestArrivalFrame := none,
            transferTrajectorySampleOffset := st.sampleOffset }
          match result.correction with
          | some c =>
              { st' with correctionAngle := c.angle,
                         correctionDuration := c.duration,
                         correctionStartFrame := c.startFrame }
          | none =>
              { st' with correctionAngle := 0,
                         correctionDuration := 0,
                         correctionStartFrame := 0 }
        else st
    | _, _ => st

/-! ### Sorted-insertion lemmas shared by the registry claims -/

lemma insertByArrival_perm (e : QEntry) (l : List QEntry) :
    (insertByArrival e l).Perm (e :: l) := by
  induction l with
  | nil => simp [insertByArrival]
  | cons t ts ih =>
    unfold insertByArrival
    by_cases h : e.arrivalFrame < t.arrivalFrame
    · simp [h]
    · simp only [if_neg h]
      exact (ih.cons t).trans (List.Perm.swap e t ts)

lemma mem_insertByArrival {x e : QEntry} {l : List QEntry} :
    x ∈ insertByArrival e l ↔ x = e ∨ x ∈ l := by
  rw [(insertByArrival_perm e l).mem_iff]
  simp

lemma sorted_insertByArrival (e : QEntry) (l : List QEntry)
    (hs : l.Sorted (fun a b => a.arrivalFrame ≤ b.arrivalFrame)) :
    (insertByArrival e l).Sorted (fun a b => a.arrivalFrame ≤ b.arrivalFrame) := by
  induction l with
  | nil => simp [insertByArrival]
  | cons t ts ih =>
    rw [List.sorted_cons] at hs
    obtain ⟨ht, hts⟩ := hs
    unfold insertByArrival
    by_cases h : e.arrivalFrame < t.arrivalFrame
    · simp only [if_pos h]
      rw [List.sorted_cons]
      refine ⟨?_, ?_⟩
      · intro b hb
        rcases List.mem_cons.mp hb with rfl | hb
        · exact le_of_lt h
        · exact (le_of_lt h).trans (ht b hb)
      · rw [List.sorted_cons]; exact ⟨ht, hts⟩
    · simp only [if_neg h]
      rw [List.sorted_cons]
      refine ⟨?_, ih hts⟩
      intro b hb
      rcases mem_insertByArrival.mp hb with rfl | hb
      · exact not_lt.mp h
      · exact ht b hb

/-- C2: ingesting a result after `k = bufferShiftsSinceInit` shifts subtracts
`k` from `launchFrame` and `arrivalFrame`, copies `correction` (with its
launch-relative `startFrame`) and the trajectory-relative `insertionFrame`
unchanged, and — when the adjusted `launchFrame` is `≤ 0` — discards the
result leaving the acceptable list untouched. -/
theorem addAcceptableTrajectory_adjusts (shifts sampleOffset : ℤ)
    (l : List QEntry) (r : QResult) :
    (r.launchFrame - shifts ≤ 0 →
      addAcceptableTrajectory shifts sampleOffset l r = l) ∧
    (0 < r.launchFrame - shifts →
      ∃ e : QEntry,
        (addAcceptableTrajectory shifts sampleOffset l r).Perm (e :: l) ∧
        e.launchFrame = r.launchFrame - shifts ∧
        e.arrivalFrame = r.arrivalFrame - shifts ∧
        e.correction = r.correction ∧
        e.insertionFrame = r.insertionFrame ∧
        e.score = r.score ∧
        e.trajectory = r.trajectory) := by
  constructor
  · intro h
    simp only [addAcceptableTrajectory]
    rw [if_pos h]
  · intro h
    refine ⟨⟨r.launchFrame - shifts, r.arrivalFrame - shifts, r.score,
      r.trajectory, r.insertionFrame, sampleOffset, r.correction⟩,
      ?_, rfl, rfl, rfl, rfl, rfl, rfl⟩
    simp only [addAcceptableTrajectory]
    rw [if_neg (not_le.mpr h)]
    exact insertByArrival_perm _ _

/-- Witness for `addAcceptableTrajectory_adjusts` at a concrete result with
`launchFrame = 5`, `arrivalFrame = 7`, two shifts. -/
theorem addAcceptableTrajectory_adjusts_witness :
    0 < (5 : ℤ) - 2 ∧
    (∃ e : QEntry,
      (addAcceptableTrajectory 2 4 []
        ⟨5, 7, some 1, [], 2, some ⟨1, 2, 3⟩⟩).Perm (e :: []) ∧
      e.launchFrame = 5 - 2 ∧
      e.arrivalFrame = 7 - 2 ∧
      e.correction = some ⟨1, 2, 3⟩ ∧
      e.insertionFrame = 2 ∧
      e.score = some 1 ∧
      e.trajectory = []) :=
  ⟨by decide,
   (addAcceptableTrajectory_adjusts 2 4 [] ⟨5, 7, some 1, [], 2, some ⟨1, 2, 3⟩⟩).2
     (by decide)⟩

/-- The registry invariant of claim C3: every entry satisfies
`0 < launch ≤ arrival ≤ HORIZON_FRAMES` and the list is sorted by
non-decreasing `arrivalFrame`. -/
def registryInv (l : List QEntry) : Prop :=
  (∀ e ∈ l, 0 < e.launchFrame ∧ e.launchFrame ≤ e.arrivalFrame ∧
    e.arrivalFrame ≤ PREDICTION_FRAMES) ∧
  l.Sorted (fun a b => a.arrivalFrame ≤ b.arrivalFrame)

instance (l : List QEntry) : Decidable (registryInv l) := by
  unfold registryInv
  infer_instance

/-- C3: the registry invariant is preserved both by ingesting a planner
result (whose snapshot-relative frames satisfy `launch ≤ arrival ≤ horizon`,
as every worker batch entry does) and by a buffer shift (which decrements
both frames of every entry and evicts entries whose launch frame reaches 0). -/
theorem registry_inv_preserved (l : List QEntry) (r : QResult)
    (shifts sampleOffset : ℤ)
    (hinv : registryInv l) (hsh : 0 ≤ shifts)
    (hla : r.launchFrame ≤ r.arrivalFrame)
    (hhz : r.arrivalFrame ≤ PREDICTION_FRAMES) :
    registryInv (addAcceptableTrajectory shifts sampleOffset l r) ∧
    registryInv (updateAcceptableTrajectoriesOnShift l) := by
  obtain ⟨hb, hs⟩ := hinv
  constructor
  · unfold addAcceptableTrajectory
    by_cases h : r.launchFrame - shifts ≤ 0
    · simp only [if_pos h]
      exact ⟨hb, hs⟩
    · simp only [if_neg h]
      constructor
      · intro e he
        rcases mem_insertByArrival.mp he with rfl | he
        · refine ⟨?_, ?_, ?_⟩ <;> simp <;> omega
        · exact hb e he
      · exact sorted_insertByArrival _ _ hs
  · unfold updateAcceptableTrajectoriesOnShift
    constructor
    · intro e he
      rw [List.mem_filter] at he
      obtain ⟨hm, hf⟩ := he
      rw [List.mem_map] at hm
      obtain ⟨a, ha, rfl⟩ := hm
      obtain ⟨h1, h2, h3⟩ := hb a ha
      simp only [decide_eq_true_eq] at hf
      refine ⟨?_, ?_, ?_⟩ <;> simp at hf ⊢ <;> omega
    · apply List.Pairwise.filter
      refine List.Pairwise.map _ ?_ hs
      intro a b hab
      simpa using by omega

/-- Witness for `registry_inv_preserved` at a concrete one-entry list and a
concrete in-bounds result with one shift. -/
theorem registry_inv_preserved_witness :
    (registryInv [⟨1, 2, some 0, [], 0, 0, none⟩] ∧ (0 : ℤ) ≤ 1 ∧
      (5 : ℤ) ≤ 6 ∧ (6 : ℤ) ≤ PREDICTION_FRAMES) ∧
    (registryInv (addAcceptableTrajectory 1 0 [⟨1, 2, some 0, [], 0, 0, none⟩]
        ⟨5, 6, some 1, [], 0, none⟩) ∧
      registryInv (updateAcceptableTrajectoriesOnShift
        [⟨1, 2, some 0, [], 0, 0, none⟩])) :=
  ⟨⟨by simp only [registryInv, PREDICTION_FRAMES_eq]; decide, by decide,
    by decide, by rw [PREDICTION_FRAMES_eq]; decide⟩,
   registry_inv_preserved [⟨1, 2, some 0, [], 0, 0, none⟩]
     ⟨5, 6, some 1, [], 0, none⟩ 1 0
     (by simp only [registryInv, PREDICTION_FRAMES_eq]; decide) (by decide)
     (by decide) (by rw [PREDICTION_FRAMES_eq]; decide)⟩

/-! ### Restarting a search never reads the cache (claim C9) -/

/-- C9 (code-bug evidence): `startTransferSearch` — the code's only path
into a new search — clears the acceptable list and resets the best plan to
`Infinity`/absent, and leaves `transferCache` untouched: it never consults
the cache.  `restoreFromTransferCache` is defined in the source
(`src/game.js` 3717-3738) but has no call site, so a cancelled-then-restarted
transfer cannot be served by a cache hit. -/
theorem startTransferSearch_no_cache_hit (st : MainState) :
    (startTransferSearch st).acceptableTrajectories = [] ∧
    (startTransferSearch st).transferBestScore = none ∧
    (startTransferSearch st).transferBestTrajectory = none ∧
    (startTransferSearch st).transferState = TState.searching ∧
    (startTransferSearch st).transferCache = st.transferCache := by
  simp [startTransferSearch]

/-! ### Scheduled-launch re-targeting on ingestion (claim C10) -/

lemma sorted_addAcceptableTrajectory (shifts so : ℤ) (l : List QEntry)
    (r : QResult) (hs : l.Sorted (fun a b => a.arrivalFrame ≤ b.arrivalFrame)) :
    (addAcceptableTrajectory shifts so l r).Sorted
      (fun a b => a.arrivalFrame ≤ b.arrivalFrame) := by
  unfold addAcceptableTrajectory
  by_cases h : r.launchFrame - shifts ≤ 0
  · rwa [if_pos h]
  · rw [if_neg h]
    exact sorted_insertByArrival _ _ hs

lemma sorted_foldl_add (results : List QResult) (shifts so : ℤ) :
    ∀ l : List QEntry, l.Sorted (fun a b => a.arrivalFrame ≤ b.arrivalFrame) →
    (results.foldl (addAcceptableTrajectory shifts so) l).Sorted
      (fun a b => a.arrivalFrame ≤ b.arrivalFrame) := by
  induction results with
  | nil => intro l h; exact h
  | cons r rs ih =>
    intro l h
    exact ih _ (sorted_addAcceptableTrajectory shifts so l r h)

lemma saveToTransferCache_preserves (st : MainState) :
    (saveToTransferCache st).acceptableTrajectories =
      st.acceptableTrajectories ∧
    (saveToTransferCache st).transferScheduledFrame =
      st.transferScheduledFrame := by
  unfold saveToTransferCache
  rcases st.transferKey with _ | key
  · exact ⟨rfl, rfl⟩
  · dsimp only
    split
    · exact ⟨rfl, rfl⟩
    · rcases st.transferBestArrivalFrame with _ | a <;> simp

/-- The shape of `ingestResult` on a result that carries acceptable
trajectories, while a launch is scheduled: the acceptable list becomes the
fold of `addAcceptableTrajectory` over the result's entries, and the
scheduled frame becomes the head's launch frame when that list is
nonempty. -/
lemma ingest_scheduled_structure (st₀ : MainState) (batch : QBatchResult)
    (batchEnd : ℤ)
    (hres : batch.acceptableResults ≠ [])
    (hsch : st₀.transferState = TState.scheduled) :
    (ingestResult st₀ batch batchEnd).acceptableTrajectories =
      batch.acceptableResults.foldl
        (addAcceptableTrajectory st₀.bufferShiftsSinceInit st₀.sampleOffset)
        st₀.acceptableTrajectories ∧
    (ingestResult st₀ batch batchEnd).transferScheduledFrame =
      (match batch.acceptableResults.foldl
        (addAcceptableTrajectory st₀.bufferShiftsSinceInit st₀.sampleOffset)
        st₀.acceptableTrajectories with
       | [] => st₀.transferScheduledFrame
       | h :: _ => h.launchFrame) := by
  rcases hL : batch.acceptableResults.foldl
      (addAcceptableTrajectory st₀.bufferShiftsSinceInit st₀.sampleOffset)
      st₀.acceptableTrajectories with _ | ⟨h, rest⟩
  · unfold ingestResult
    dsimp only
    rw [if_pos hres]
    split
    all_goals (
      dsimp only
      rw [hL]
      unfold updateBestFromList
      dsimp only
      rw [hsch]
      dsimp only
      rw [if_neg (fun hh => TState.noConfusion hh)]
      exact ⟨(saveToTransferCache_preserves _).1,
        (saveToTransferCache_preserves _).2⟩)
  · unfold ingestResult
    dsimp only
    rw [if_pos hres]
    split
    all_goals (
      dsimp only
      rw [hL]
      unfold updateBestFromList
      dsimp only
      rcases hc : h.correction with _ | c
      all_goals (
        dsimp only
        rw [hsch]
        dsimp only
        rw [if_neg (fun hh => TState.noConfusion hh)]
        exact ⟨(saveToTransferCache_preserves _).1,
          (saveToTransferCache_preserves _).2⟩))

/-- C10 (amended): while a launch is scheduled, an ingested result with at
least one acceptable trajectory re-targets the pending scheduled frame to the
launch frame of the head of the updated acceptable list — the entry with the
earliest arrival — provided the list is nonempty after ingestion (a result
whose every trajectory is discarded by the shift adjustment, landing on an
empty list, leaves the scheduled frame unchanged, see the counterexample). -/
theorem ingest_scheduled_retargets (st₀ : MainState) (batch : QBatchResult)
    (batchEnd : ℤ)
    (hsch : st₀.transferState = TState.scheduled)
    (hsorted : st₀.acceptableTrajectories.Sorted
      (fun a b => a.arrivalFrame ≤ b.arrivalFrame))
    (hres : batch.acceptableResults ≠ [])
    (hne : (ingestResult st₀ batch batchEnd).acceptableTrajectories ≠ []) :
    ∃ h rest,
      (ingestResult st₀ batch batchEnd).acceptableTrajectories = h :: rest ∧
      (ingestResult st₀ batch batchEnd).transferScheduledFrame =
        h.launchFrame ∧
      ∀ e ∈ (ingestResult st₀ batch batchEnd).acceptableTrajectories,
        h.arrivalFrame ≤ e.arrivalFrame := by
  obtain ⟨hacc, hframe⟩ := ingest_scheduled_structure st₀ batch batchEnd hres hsch
  have hLs : (batch.acceptableResults.foldl
      (addAcceptableTrajectory st₀.bufferShiftsSinceInit st₀.sampleOffset)
      st₀.acceptableTrajectories).Sorted
      (fun a b => a.arrivalFrame ≤ b.arrivalFrame) :=
    sorted_foldl_add _ _ _ _ hsorted
  rcases hL : batch.acceptableResults.foldl
      (addAcceptableTrajectory st₀.bufferShiftsSinceInit st₀.sampleOffset)
      st₀.acceptableTrajectories with _ | ⟨h, rest⟩
  · rw [hacc, hL] at hne
    exact absurd rfl hne
  · rw [hL] at hacc hframe hLs
    dsimp only at hframe
    rw [List.sorted_cons] at hLs
    refine ⟨h, rest, hacc, hframe, ?_⟩
    rw [hacc]
    intro e he
    rcases List.mem_cons.mp he with rfl | he
    · exact le_refl _
    · exact hLs.1 e he

/-- C10 counterexample: a scheduled transfer (`transferScheduledFrame = 42`,
five shifts since worker init, empty acceptable list) ingests a result whose
single acceptable trajectory has `launchFrame = 3`; the shift adjustment
makes it `-2 ≤ 0`, it is discarded, the list stays empty and the scheduled
frame is *not* overwritten — refuting the claim that every ingested result
containing an acceptable trajectory re-targets the scheduled launch.
(`MainState` fields in declaration order; `QResult` is
⟨launch, arrival, score, trajectory, insertion, correction⟩.) -/
theorem ingest_scheduled_retargets_cex :
    ((⟨TState.scheduled, [], 42, 5, 0, 0, false, 0, 0, 1, 0, none, -1, none,
        none, 0, 0, 0, 0, 0, none, []⟩ : MainState).transferState =
      TState.scheduled) ∧
    ((⟨[⟨3, 4, some 1, [], 0, none⟩], none⟩ :
        QBatchResult).acceptableResults ≠ []) ∧
    (ingestResult
      ⟨TState.scheduled, [], 42, 5, 0, 0, false, 0, 0, 1, 0, none, -1, none,
        none, 0, 0, 0, 0, 0, none, []⟩
      ⟨[⟨3, 4, some 1, [], 0, none⟩], none⟩ 10).acceptableTrajectories = [] ∧
    (ingestResult
      ⟨TState.scheduled, [], 42, 5, 0, 0, false, 0, 0, 1, 0, none, -1, none,
        none, 0, 0, 0, 0, 0, none, []⟩
      ⟨[⟨3, 4, some 1, [], 0, none⟩], none⟩ 10).transferScheduledFrame = 42 := by
  decide

/-- Witness for `ingest_scheduled_retargets`: one shift, a surviving
trajectory — the scheduled frame is re-targeted to the head's launch frame. -/
theorem ingest_scheduled_retargets_witness :
    ∃ h rest,
      (ingestResult
        ⟨TState.scheduled, [], 42, 1, 0, 0, false, 0, 0, 1, 0, none, -1, none,
          none, 0, 0, 0, 0, 0, none, []⟩
        ⟨[⟨3, 4, some 1, [], 0, none⟩], none⟩ 10).acceptableTrajectories =
        h :: rest ∧
      (ingestResult
        ⟨TState.scheduled, [], 42, 1, 0, 0, false, 0, 0, 1, 0, none, -1, none,
          none, 0, 0, 0, 0, 0, none, []⟩
        ⟨[⟨3, 4, some 1, [], 0, none⟩], none⟩ 10).transferScheduledFrame =
        h.launchFrame ∧
      ∀ e ∈ (ingestResult
        ⟨TState.scheduled, [], 42, 1, 0, 0, false, 0, 0, 1, 0, none, -1, none,
          none, 0, 0, 0, 0, 0, none, []⟩
        ⟨[⟨3, 4, some 1, [], 0, none⟩], none⟩ 10).acceptableTrajectories,
        h.arrivalFrame ≤ e.arrivalFrame :=
  ingest_scheduled_retargets _ _ 10 (by decide) (List.sorted_nil) (by decide)
    (by decide)

/-! ## The simulation clock (claim C7) — `updatePhysics`, `src/game.js`
2725-2855

`predictionTimeAccum += dt * speedMultiplier`, then
`while (predictionTimeAccum >= PREDICTION_DT && predictionBuffer.length > 0)`
pop the head frame, apply it, and subtract `PREDICTION_DT`.  Refilling the
tail happens *after* the loop (line 2857). -/

/-- The shift `while` loop: returns (number of shift events, the popped
frames in pop order, final accumulator, remaining buffer). -/
def advanceLoop {α : Type} : ℚ → List α → ℕ × List α × ℚ × List α
  | accum, [] => (0, [], accum, [])
  | accum, f :: rest =>
      if PREDICTION_DT_Q ≤ accum then
        let r := advanceLoop (accum - PREDICTION_DT_Q) rest
        (r.1 + 1, f :: r.2.1, r.2.2.1, r.2.2.2)
      else (0, [], accum, f :: rest)

/-- One tick: accumulate `real_dt · speed`, then run the shift loop. -/
def tickShifts {α : Type} (accum realDt speed : ℚ) (buf : List α) :
    ℕ × List α × ℚ × List α :=
  advanceLoop (accum + realDt * speed) buf

lemma advanceLoop_spec {α : Type} :
    ∀ (buf : List α) (accum : ℚ),
      (advanceLoop accum buf).1 =
        min (⌊accum / PREDICTION_DT_Q⌋.toNat) buf.length ∧
      (advanceLoop accum buf).2.1 = buf.take (advanceLoop accum buf).1 ∧
      (advanceLoop accum buf).2.2.1 =
        accum - (advanceLoop accum buf).1 * PREDICTION_DT_Q ∧
      (advanceLoop accum buf).2.2.2 = buf.drop (advanceLoop accum buf).1 := by
  intro buf
  induction buf with
  | nil =>
    intro accum
    refine ⟨by simp [advanceLoop], by simp [advanceLoop], ?_,
      by simp [advanceLoop]⟩
    simp [advanceLoop]
  | cons f rest ih =>
    intro accum
    by_cases h : PREDICTION_DT_Q ≤ accum
    · have hpos : (1 : ℤ) ≤ ⌊accum / PREDICTION_DT_Q⌋ := by
        rw [Int.le_floor]
        push_cast
        rw [le_div_iff₀ (by norm_num [PREDICTION_DT_Q])]
        simpa using h
      have hsub : ⌊(accum - PREDICTION_DT_Q) / PREDICTION_DT_Q⌋ =
          ⌊accum / PREDICTION_DT_Q⌋ - 1 := by
        rw [sub_div, div_self (by norm_num [PREDICTION_DT_Q] :
          PREDICTION_DT_Q ≠ 0)]
        have := Int.floor_sub_int (accum / PREDICTION_DT_Q) 1
        simpa using this
      obtain ⟨ih1, ih2, ih3, ih4⟩ := ih (accum - PREDICTION_DT_Q)
      refine ⟨?_, ?_, ?_, ?_⟩
      · simp only [advanceLoop, if_pos h]
        rw [ih1, hsub, List.length_cons]
        omega
      · simp only [advanceLoop, if_pos h]
        rw [ih2]
        simp [List.take_succ_cons]
      · simp only [advanceLoop, if_pos h]
        rw [ih3]
        push_cast
        ring
      · simp only [advanceLoop, if_pos h]
        rw [ih4]
        simp [List.drop_succ_cons]
    · have hz : ⌊accum / PREDICTION_DT_Q⌋.toNat = 0 := by
        have hlt : accum / PREDICTION_DT_Q < 1 := by
          rw [div_lt_one (by norm_num [PREDICTION_DT_Q])]
          exact lt_of_not_le h
        have hf : ⌊accum / PREDICTION_DT_Q⌋ < 1 := by
          rw [show (1 : ℤ) = ((1 : ℤ) : ℤ) from rfl, Int.floor_lt]
          exact_mod_cast hlt
        omega
      refine ⟨?_, ?_, ?_, ?_⟩ <;> simp only [advanceLoop, if_neg h]
      · simp [hz]
      · simp
      · simp
      · simp

/-- C7 (amended): a tick that advances wall time `realDt` at speed
multiplier `speed` with accumulator `accum` performs exactly
`min(⌊(accum + realDt·speed)/dt_fixed⌋, buffer length)` shift events — the
claim's count `⌊(accum + realDt·speed)/dt_fixed⌋` holds only while the buffer
holds that many frames (the loop also stops when the buffer empties).  Each
event pops one head frame, in order: the applied frames are exactly the
length-`count` prefix of the buffer, the rest remains, and the accumulator
retains the remainder. -/
theorem tickShifts_count {α : Type} (accum realDt speed : ℚ) (buf : List α) :
    (tickShifts accum realDt speed buf).1 =
      min (⌊(accum + realDt * speed) / PREDICTION_DT_Q⌋.toNat) buf.length ∧
    (tickShifts accum realDt speed buf).2.1 =
      buf.take (tickShifts accum realDt speed buf).1 ∧
    (tickShifts accum realDt speed buf).2.2.1 =
      (accum + realDt * speed) -
        (tickShifts accum realDt speed buf).1 * PREDICTION_DT_Q ∧
    (tickShifts accum realDt speed buf).2.2.2 =
      buf.drop (tickShifts accum realDt speed buf).1 :=
  advanceLoop_spec buf (accum + realDt * speed)

/-- C7 counterexample: with an empty buffer, zero accumulator and a tick of
one full `dt_fixed`, the claim predicts one shift event but the loop (guarded
by `predictionBuffer.length > 0`) performs none. -/
theorem tickShifts_count_cex :
    (tickShifts 0 PREDICTION_DT_Q 1 ([] : List Unit)).1 ≠
      ⌊((0 : ℚ) + PREDICTION_DT_Q * 1) / PREDICTION_DT_Q⌋.toNat := by
  have h1 : ⌊PREDICTION_DT_Q / PREDICTION_DT_Q⌋ = (1 : ℤ) := by
    rw [div_self (by norm_num [PREDICTION_DT_Q] : PREDICTION_DT_Q ≠ 0)]
    exact Int.floor_one
  simp [tickShifts, advanceLoop, h1]

/-! ## The transfer worker (claims C4, C8) — `src/transfer-worker.js`

The worker reasons over a snapshot `predictionBuffer : List (List WState)`
(one inner list of body states per frame) and `bodiesMasses : List ℝ`.
JavaScript `Infinity` scores are `none`. -/

/-- A body state in a snapshot frame. -/
structure WState where
  x : ℝ
  y : ℝ
  vx : ℝ
  vy : ℝ

instance : Inhabited WState := ⟨⟨0, 0, 0, 0⟩⟩

/-- A simulated craft trajectory frame. -/
structure WFrame where
  x : ℝ
  y : ℝ
  vx : ℝ
  vy : ℝ
  isAccelerating : Bool

/-- The mutable `state` of the worker's simulation loops. -/
structure CraftRun where
  x : ℝ
  y : ℝ
  vx : ℝ
  vy : ℝ
  isAccelerating : Bool
  escapeVelocity : ℝ

/-- `PRE_OPTIMIZATION_THRESHOLD = 20`. -/
noncomputable def PRE_OPTIMIZATION_THRESHOLD : ℝ := 20

/-- `POST_OPTIMIZATION_THRESHOLD = 5`. -/
noncomputable def POST_OPTIMIZATION_THRESHOLD : ℝ := 5

/-- JavaScript `a <= c` where the score `a` may be `Infinity`. -/
noncomputable def scoreLeb (a : Option ℝ) (c : ℝ) : Bool :=
  match a with
  | none => false
  | some x => decide (x ≤ c)

/-- JavaScript `a < b` on scores where `none` is `+∞`. -/
noncomputable def scoreLtb (a b : Option ℝ) : Bool :=
  match a, b with
  | none, _ => false
  | some _, none => true
  | some x, some y => decide (x < y)

/-- `a ≤ b` on scores where `none` is `+∞` (the complement of `scoreLtb`). -/
def scoreLe (a b : Option ℝ) : Prop :=
  match a, b with
  | none, none => True
  | none, some _ => False
  | some _, none => True
  | some x, some y => x ≤ y

/-- The gravity inner loop of the worker's trajectory simulators
(`src/transfer-worker.js` 42-54): sum over all snapshot bodies (the craft is
massless and not among them). -/
noncomputable def wGravLoop (s : CraftRun) :
    List (WState × ℝ) → ℝ × ℝ → ℝ × ℝ
  | [], acc => acc
  | (b, m) :: rest, acc =>
      let dx := b.x - s.x
      let dy := b.y - s.y
      let dist := Real.sqrt (dx * dx + dy * dy)
      let safeDist := max dist MIN_DISTANCE
      let acceleration := G * m / (safeDist * safeDist)
      wGravLoop s rest
        (acc.1 + acceleration * (dx / dist), acc.2 + acceleration * (dy / dist))

/-- The escape-boost block (`src/transfer-worker.js` 56-74): prograde thrust
relative to the launch body while `isAccelerating`, cleared once the relative
speed reaches `1.1 ×` escape velocity.  Returns the thrust acceleration and
the (possibly flag-cleared) state. -/
noncomputable def wBoost (s : CraftRun) (bodyStates : List WState)
    (srcIdx : ℕ) (orbitalDirection : ℝ) : (ℝ × ℝ) × CraftRun :=
  if s.isAccelerating then
    let launchBodyState := bodyStates.getD srcIdx default
    let dx := s.x - launchBodyState.x
    let dy := s.y - launchBodyState.y
    let dist := Real.sqrt (dx * dx + dy * dy)
    let accelDirX := -orbitalDirection * dy / dist
    let accelDirY := orbitalDirection * dx / dist
    let relVx := s.vx - launchBodyState.vx
    let relVy := s.vy - launchBodyState.vy
    let relSpeed := Real.sqrt (relVx * relVx + relVy * relVy)
    ((CRAFT_ACCELERATION * accelDirX, CRAFT_ACCELERATION * accelDirY),
     if (11 / 10 : ℝ) * s.escapeVelocity ≤ relSpeed then
       { s with isAccelerating := false }
     else s)
  else ((0, 0), s)

/-- The semi-implicit update of the worker loops
(`src/transfer-worker.js` 76-79). -/
noncomputable def wIntegrate (s : CraftRun) (ax ay : ℝ) : CraftRun :=
  let vx := s.vx + ax * PREDICTION_DT
  let vy := s.vy + ay * PREDICTION_DT
  { s with vx := vx, vy := vy,
           x := s.x + vx * PREDICTION_DT, y := s.y + vy * PREDICTION_DT }

/-- The craft state at launch (`src/transfer-worker.js` 25-32 / 177-184). -/
noncomputable def launchState (buffer : List (List WState)) (startFrame : ℕ)
    (srcIdx : ℕ) (orbitRadius orbitalSpeed futureAngle escapeVelocity
    orbitalDirection : ℝ) : CraftRun :=
  let bodyState := (buffer.getD startFrame []).getD srcIdx default
  { x := bodyState.x + orbitRadius * Real.cos futureAngle,
    y := bodyState.y + orbitRadius * Real.sin futureAngle,
    vx := bodyState.vx - orbitalDirection * orbitalSpeed * Real.sin futureAngle,
    vy := bodyState.vy + orbitalDirection * orbitalSpeed * Real.cos futureAngle,
    isAccelerating := true,
    escapeVelocity := escapeVelocity }

/-- The frame loop of `simulateTrajectory` (`src/transfer-worker.js` 36-88),
recursing over the snapshot suffix from the launch frame. -/
noncomputable def simTrajAux (masses : List ℝ) (srcIdx : ℕ)
    (orbitalDirection : ℝ) : List (List WState) → CraftRun → List WFrame
  | [], _ => []
  | bodyStates :: restFrames, s =>
      let g := wGravLoop s (bodyStates.zip masses) (0, 0)
      let bs := wBoost s bodyStates srcIdx orbitalDirection
      let s2 := wIntegrate bs.2 (g.1 + bs.1.1) (g.2 + bs.1.2)
      ⟨s2.x, s2.y, s2.vx, s2.vy, s2.isAccelerating⟩ ::
        simTrajAux masses srcIdx orbitalDirection restFrames s2

/-- `simulateTrajectory` (`src/transfer-worker.js` 20-91). -/
noncomputable def simulateTrajectory (buffer : List (List WState))
    (masses : List ℝ) (startFrame srcIdx : ℕ)
    (orbitRadius orbitalSpeed futureAngle escapeVelocity orbitalDirection : ℝ) :
    List WFrame :=
  if startFrame < buffer.length then
    simTrajAux masses srcIdx orbitalDirection (buffer.drop startFrame)
      (launchState buffer startFrame srcIdx orbitRadius orbitalSpeed
        futureAngle escapeVelocity orbitalDirection)
  else []

/-- The closest-approach scan shared by both scorers
(`src/transfer-worker.js` 101-115 / 130-144), over the trajectory zipped with
the snapshot suffix (the zip encodes the `frameIndex >= buffer.length`
break).  Tracks the strictly-smallest distance and its first index. -/
noncomputable def minDistLoop (destIdx : ℕ) :
    ℕ → Option ℝ × ℕ → List (WFrame × List WState) → Option ℝ × ℕ
  | _, acc, [] => acc
  | i, acc, (cf, bs) :: rest =>
      let dp := bs.getD destIdx default
      let dx := cf.x - dp.x
      let dy := cf.y - dp.y
      let distance := Real.sqrt (dx * dx + dy * dy)
      if scoreLtb (some distance) acc.1 then
        minDistLoop destIdx (i + 1) (some distance, i) rest
      else minDistLoop destIdx (i + 1) acc rest

/-- `scoreTrajectory` (`src/transfer-worker.js` 94-120): base score
`|d_min − d_ideal|` and the insertion frame. -/
noncomputable def scoreTrajectory (buffer : List (List WState))
    (trajectory : List WFrame) (destBodyIndex : ℤ) (destBodyRadius : ℝ)
    (startFrame : ℕ) : Option ℝ × ℕ :=
  if destBodyIndex < 0 then (none, 0)
  else
    let idealDistance := destBodyRadius + CRAFT_ORBITAL_ALTITUDE
    match minDistLoop destBodyIndex.toNat 0 (none, 0)
        (trajectory.zip (buffer.drop startFrame)) with
    | (none, _) => (none, 0)
    | (some m, ins) => (some |m - idealDistance|, ins)

/-- The 20-frame error window of `scoreCorrectedTrajectory`
(`src/transfer-worker.js` 148-162): running total and count. -/
noncomputable def windowErrLoop (destIdx : ℕ) (ideal : ℝ) :
    ℝ × ℕ → List (WFrame × List WState) → ℝ × ℕ
  | acc, [] => acc
  | (tot, cnt), (cf, bs) :: rest =>
      let dp := bs.getD destIdx default
      let dx := cf.x - dp.x
      let dy := cf.y - dp.y
      let distance := Real.sqrt (dx * dx + dy * dy)
      windowErrLoop destIdx ideal (tot + |distance - ideal|, cnt + 1) rest

/-- `scoreCorrectedTrajectory` (`src/transfer-worker.js` 123-166): mean
altitude error over the 20 frames from the insertion frame. -/
noncomputable def scoreCorrectedTrajectory (buffer : List (List WState))
    (trajectory : List WFrame) (destBodyIndex : ℤ) (destBodyRadius : ℝ)
    (startFrame : ℕ) : Option ℝ × ℕ :=
  if destBodyIndex < 0 then (none, 0)
  else
    let idealDistance := destBodyRadius + CRAFT_ORBITAL_ALTITUDE
    match minDistLoop destBodyIndex.toNat 0 (none, 0)
        (trajectory.zip (buffer.drop startFrame)) with
    | (none, _) => (none, 0)
    | (some _, ins) =>
        let window := ((trajectory.zip (buffer.drop startFrame)).drop ins).take 20
        let r := windowErrLoop destBodyIndex.toNat idealDistance (0, 0) window
        (if r.2 ≠ 0 then some (r.1 / r.2) else none, ins)

/-- The frame loop of `simulateTrajectoryWithCorrection`
(`src/transfer-worker.js` 189-251): additionally captures the craft velocity
at the correction start and applies the correction thrust during the burn
window. -/
noncomputable def simCorrAux (masses : List ℝ) (srcIdx : ℕ)
    (orbitalDirection : ℝ) (corrStart corrDur : ℕ) (corrAng : ℝ) :
    ℕ → List (List WState) → CraftRun → Option (ℝ × ℝ) →
    List WFrame × Option (ℝ × ℝ)
  | _, [], _, vA => ([], vA)
  | localFrame, bodyStates :: restFrames, s, vA =>
      let vA1 := if localFrame = corrStart then some (s.vx, s.vy) else vA
      let g := wGravLoop s (bodyStates.zip masses) (0, 0)
      let bs := wBoost s bodyStates srcIdx orbitalDirection
      let corr : ℝ × ℝ :=
        if corrStart ≤ localFrame ∧ localFrame < corrStart + corrDur then
          (CRAFT_ACCELERATION * Real.cos corrAng,
           CRAFT_ACCELERATION * Real.sin corrAng)
        else (0, 0)
      let s2 := wIntegrate bs.2 (g.1 + bs.1.1 + corr.1) (g.2 + bs.1.2 + corr.2)
      let r := simCorrAux masses srcIdx orbitalDirection corrStart corrDur
        corrAng (localFrame + 1) restFrames s2 vA1
      (⟨s2.x, s2.y, s2.vx, s2.vy, s2.isAccelerating⟩ :: r.1, r.2)

/-- `simulateTrajectoryWithCorrection` (`src/transfer-worker.js` 169-254). -/
noncomputable def simulateTrajectoryWithCorrection
    (buffer : List (List WState)) (masses : List ℝ) (startFrame srcIdx : ℕ)
    (orbitRadius orbitalSpeed futureAngle escapeVelocity : ℝ)
    (corrStart corrDur : ℕ) (corrAng orbitalDirection : ℝ) :
    List WFrame × Option (ℝ × ℝ) :=
  if startFrame < buffer.length then
    simCorrAux masses srcIdx orbitalDirection corrStart corrDur corrAng 0
      (buffer.drop startFrame)
      (launchState buffer startFrame srcIdx orbitRadius orbitalSpeed
        futureAngle escapeVelocity orbitalDirection) none
  else ([], none)

/-- The parameter record of `optimizeCorrectionBoost`
(`src/transfer-worker.js` 257-261). -/
structure OptParams where
  startFrame : ℕ
  sourceBodyIndex : ℕ
  orbitRadius : ℝ
  orbitalSpeed : ℝ
  futureAngle : ℝ
  escapeVelocity : ℝ
  destBodyIndex : ℤ
  destBodyRadius : ℝ
  orbitalDirection : ℝ

/-- `ANGLE_STEP = 0.1 * π / 180`. -/
noncomputable def ANGLE_STEP : ℝ := (1 / 10) * Real.pi / 180

/-- `MAX_DURATION = Math.ceil(10 / PREDICTION_DT) = 304`. -/
def MAX_DURATION : ℕ := (⌈(10 : ℚ) / PREDICTION_DT_Q⌉).toNat

lemma MAX_DURATION_eq : MAX_DURATION = 304 := by
  unfold MAX_DURATION PREDICTION_DT_Q
  rw [show ⌈(10 : ℚ) / (33 / 1000)⌉ = 304 by rw [Int.ceil_eq_iff] <;> norm_num]
  rfl

/-- `MAX_ITERATIONS = 10000`. -/
def MAX_ITERATIONS : ℕ := 10000

/-- The state of the coordinate-descent loop. -/
structure OptState where
  angle : ℝ
  duration : ℕ
  bestScore : Option ℝ
  bestTrajectory : List WFrame
  improved : Bool

/-- The corrected trajectory simulated at a given burn (duration, angle) for
the candidate `p`. -/
noncomputable def corrTrajAt (buffer : List (List WState)) (masses : List ℝ)
    (p : OptParams) (corrStart : ℕ) (dur : ℕ) (ang : ℝ) : List WFrame :=
  (simulateTrajectoryWithCorrection buffer masses p.startFrame
    p.sourceBodyIndex p.orbitRadius p.orbitalSpeed p.futureAngle
    p.escapeVelocity corrStart dur ang p.orbitalDirection).1

/-- The corrected score at a given burn (duration, angle). -/
noncomputable def corrScoreAt (buffer : List (List WState)) (masses : List ℝ)
    (p : OptParams) (corrStart : ℕ) (dur : ℕ) (ang : ℝ) : Option ℝ × ℕ :=
  scoreCorrectedTrajectory buffer (corrTrajAt buffer masses p corrStart dur ang)
    p.destBodyIndex p.destBodyRadius p.startFrame

/-- One angle probe of the descent (`src/transfer-worker.js` 303-316). -/
noncomputable def tryAngle (buffer : List (List WState)) (masses : List ℝ)
    (p : OptParams) (corrStart : ℕ) (st : OptState) (testAngle : ℝ) :
    OptState :=
  let score := corrScoreAt buffer masses p corrStart st.duration testAngle
  if scoreLtb score.1 st.bestScore then
    { st with angle := testAngle, bestScore := score.1,
              bestTrajectory := corrTrajAt buffer masses p corrStart
                st.duration testAngle,
              improved := true }
  else st

/-- The clamped duration probe value
(`Math.max(0, Math.min(MAX_DURATION, duration + delta))`). -/
def clampDuration (d : ℕ) (delta : ℤ) : ℕ :=
  (max 0 (min (MAX_DURATION : ℤ) ((d : ℤ) + delta))).toNat

/-- One duration probe of the descent (`src/transfer-worker.js` 318-333). -/
noncomputable def tryDuration (buffer : List (List WState)) (masses : List ℝ)
    (p : OptParams) (corrStart : ℕ) (st : OptState) (delta : ℤ) : OptState :=
  let testDuration := clampDuration st.duration delta
  if testDuration = st.duration then st
  else
    let score := corrScoreAt buffer masses p corrStart testDuration st.angle
    if scoreLtb score.1 st.bestScore then
      { st with duration := testDuration, bestScore := score.1,
                bestTrajectory := corrTrajAt buffer masses p corrStart
                  testDuration st.angle,
                improved := true }
    else st

/-- One iteration of the `while` loop (`src/transfer-worker.js` 299-334):
clear `improved`, probe `angle ± ANGLE_STEP` then `duration ± 1` (each probe
sees the updates of the previous ones). -/
noncomputable def optIter (buffer : List (List WState)) (masses : List ℝ)
    (p : OptParams) (corrStart : ℕ) (st : OptState) : OptState :=
  let st0 := { st with improved := false }
  let st1 := tryAngle buffer masses p corrStart st0 (st0.angle - ANGLE_STEP)
  let st2 := tryAngle buffer masses p corrStart st1 (st1.angle + ANGLE_STEP)
  let st3 := tryDuration buffer masses p corrStart st2 (-1)
  tryDuration buffer masses p corrStart st3 1

/-- The `while (improved && iterationCount < MAX_ITERATIONS)` loop; the
second component is the number of iterations performed. -/
noncomputable def optLoop (buffer : List (List WState)) (masses : List ℝ)
    (p : OptParams) (corrStart : ℕ) : ℕ → OptState → OptState × ℕ
  | 0, st => (st, 0)
  | fuel + 1, st =>
      if st.improved then
        let r := optLoop buffer masses p corrStart fuel
          (optIter buffer masses p corrStart st)
        (r.1, r.2 + 1)
      else (st, 0)

/-- The return record of `optimizeCorrectionBoost`. -/
structure OptResult where
  angle : ℝ
  duration : ℕ
  startFrame : ℕ
  score : Option ℝ
  trajectory : List WFrame
  insertionFrame : ℕ

/-- `optimizeCorrectionBoost` (`src/transfer-worker.js` 257-351). -/
noncomputable def optimizeCorrectionBoost (buffer : List (List WState))
    (masses : List ℝ) (p : OptParams) (insertionFrame : ℕ) : OptResult :=
  let correctionStart := insertionFrame * 2 / 3
  let initialResult := simulateTrajectoryWithCorrection buffer masses
    p.startFrame p.sourceBodyIndex p.orbitRadius p.orbitalSpeed p.futureAngle
    p.escapeVelocity correctionStart 0 0 p.orbitalDirection
  match initialResult.2 with
  | none =>
      { angle := 0, duration := 0, startFrame := correctionStart,
        score := none, trajectory := initialResult.1, insertionFrame := 0 }
  | some vel =>
      let angle := atan2 vel.2 vel.1 + Real.pi
      let duration := 1
      let currentScore := corrScoreAt buffer masses p correctionStart
        duration angle
      let st0 : OptState :=
        { angle := angle, duration := duration, bestScore := currentScore.1,
          bestTrajectory := corrTrajAt buffer masses p correctionStart
            duration angle,
          improved := true }
      let final := (optLoop buffer masses p correctionStart MAX_ITERATIONS
        st0).1
      let finalScoreResult := scoreCorrectedTrajectory buffer
        final.bestTrajectory p.destBodyIndex p.destBodyRadius p.startFrame
      { angle := final.angle, duration := final.duration,
        startFrame := correctionStart, score := final.bestScore,
        trajectory := final.bestTrajectory.take (finalScoreResult.2 + 1),
        insertionFrame := finalScoreResult.2 }

/-- What `processBatch` records per candidate (`src/transfer-worker.js`
399-411 / 414-427 / 434-443); `correction` is `(angle, duration,
startFrame)`. -/
structure BatchEntry where
  launchFrame : ℕ
  score : Option ℝ
  trajectory : List WFrame
  insertionFrame : ℕ
  arrivalFrame : ℕ
  correction : Option (ℝ × ℕ × ℕ)
  acceptable : Bool

/-- The search parameters of a batch (`src/transfer-worker.js` 356-360).
`orbitalDirection` is destructured by the worker; `dispatchNextBatch`
(`src/game.js` 3597-3613) never sends it, so at runtime it is `undefined` —
here it is an arbitrary real. -/
structure WParams where
  sourceBodyIndex : ℕ
  destBodyIndex : ℤ
  destBodyRadius : ℝ
  orbitRadius : ℝ
  orbitalSpeed : ℝ
  baseOrbitalAngle : ℝ
  angularVelocity : ℝ
  escapeVelocity : ℝ
  orbitalDirection : ℝ

/-- The orbital angle at a candidate launch frame
(`src/transfer-worker.js` 367). -/
noncomputable def futureAngleAt (params : WParams) (launchFrame : ℕ) : ℝ :=
  params.baseOrbitalAngle +
    params.orbitalDirection * params.angularVelocity * launchFrame *
      PREDICTION_DT

/-- The outcome of one candidate launch frame of the batch loop. -/
inductive CandOutcome
  | skip
  | accepted (e : BatchEntry)
  | notAccepted (e : BatchEntry)

/-- The base trajectory simulated for candidate `L`
(`src/transfer-worker.js` 370-372). -/
noncomputable def candTrajectory (buffer : List (List WState))
    (masses : List ℝ) (params : WParams) (L : ℕ) : List WFrame :=
  simulateTrajectory buffer masses L params.sourceBodyIndex params.orbitRadius
    params.orbitalSpeed (futureAngleAt params L) params.escapeVelocity
    params.orbitalDirection

/-- The base score and insertion frame for candidate `L`
(`src/transfer-worker.js` 377). -/
noncomputable def candBase (buffer : List (List WState)) (masses : List ℝ)
    (params : WParams) (L : ℕ) : Option ℝ × ℕ :=
  scoreTrajectory buffer (candTrajectory buffer masses params L)
    params.destBodyIndex params.destBodyRadius L

/-- The optimizer parameters built for candidate `L`
(`src/transfer-worker.js` 381-391). -/
noncomputable def candOptParams (params : WParams) (L : ℕ) : OptParams :=
  { startFrame := L,
    sourceBodyIndex := params.sourceBodyIndex,
    orbitRadius := params.orbitRadius,
    orbitalSpeed := params.orbitalSpeed,
    futureAngle := futureAngleAt params L,
    escapeVelocity := params.escapeVelocity,
    destBodyIndex := params.destBodyIndex,
    destBodyRadius := params.destBodyRadius,
    orbitalDirection := params.orbitalDirection }

/-- The optimizer run for candidate `L`. -/
noncomputable def candOpt (buffer : List (List WState)) (masses : List ℝ)
    (params : WParams) (L : ℕ) : OptResult :=
  optimizeCorrectionBoost buffer masses (candOptParams params L)
    (candBase buffer masses params L).2

/-- The body of the `processBatch` loop for one candidate launch frame
(`src/transfer-worker.js` 366-445), with the loop-body `let`s
(`trajectory`, `baseResult`, `correctionResult`) named by the `cand*`
definitions above. -/
noncomputable def evalCandidate (buffer : List (List WState))
    (masses : List ℝ) (params : WParams) (launchFrame : ℕ) : CandOutcome :=
  let trajectory := candTrajectory buffer masses params launchFrame
  if trajectory.length = 0 then CandOutcome.skip
  else
    let baseResult := candBase buffer masses params launchFrame
    if scoreLeb baseResult.1 PRE_OPTIMIZATION_THRESHOLD then
      let c := candOpt buffer masses params launchFrame
      if scoreLeb c.score POST_OPTIMIZATION_THRESHOLD then
        CandOutcome.accepted
          ⟨launchFrame, c.score, c.trajectory, c.insertionFrame,
           launchFrame + c.trajectory.length,
           some (c.angle, c.duration, c.startFrame), true⟩
      else
        CandOutcome.notAccepted
          ⟨launchFrame, c.score, c.trajectory, c.insertionFrame,
           launchFrame + c.trajectory.length,
           some (c.angle, c.duration, c.startFrame), false⟩
    else
      let truncated := trajectory.take (baseResult.2 + 1)
      CandOutcome.notAccepted
        ⟨launchFrame, baseResult.1, truncated, baseResult.2,
         launchFrame + truncated.length, none, false⟩

/-- The `bestNonAcceptable` update: keep the first strictly-lowest score
(`src/transfer-worker.js` 414 / 432). -/
noncomputable def bnaUpdate (bna : Option BatchEntry) (e : BatchEntry) :
    Option BatchEntry :=
  match bna with
  | none => some e
  | some b => if scoreLtb e.score b.score then some e else some b

/-- One step of the batch fold.  The loop condition
`launchFrame < predictionBuffer.length` is a guard here: once false it stays
false for larger frames, so guarding equals breaking. -/
noncomputable def batchStep (buffer : List (List WState)) (masses : List ℝ)
    (params : WParams) (st : List BatchEntry × Option BatchEntry) (L : ℕ) :
    List BatchEntry × Option BatchEntry :=
  if L < buffer.length then
    match evalCandidate buffer masses params L with
    | CandOutcome.skip => st
    | CandOutcome.accepted e => (st.1 ++ [e], st.2)
    | CandOutcome.notAccepted e => (st.1, bnaUpdate st.2 e)
  else st

/-- `processBatch` (`src/transfer-worker.js` 355-453): all acceptable
trajectories in launch-frame order, plus the best non-acceptable fallback. -/
noncomputable def processBatch (buffer : List (List WState))
    (masses : List ℝ) (params : WParams) (frameStart frameEnd : ℕ) :
    List BatchEntry × Option BatchEntry :=
  (List.range' frameStart (frameEnd - frameStart)).foldl
    (batchStep buffer masses params) ([], none)

/-! ### Per-candidate views of the batch loop, for stating C4 -/

/-- What the accumulating list receives for candidate `L`: `some` exactly on
accepted candidates. -/
noncomputable def acceptedAt (buffer : List (List WState)) (masses : List ℝ)
    (params : WParams) (L : ℕ) : Option BatchEntry :=
  if L < buffer.length then
    match evalCandidate buffer masses params L with
    | CandOutcome.accepted e => some e
    | _ => none
  else none

/-- What the fallback accumulator receives for candidate `L`: `some` exactly
on evaluated-but-not-accepted candidates. -/
noncomputable def fallbackAt (buffer : List (List WState)) (masses : List ℝ)
    (params : WParams) (L : ℕ) : Option BatchEntry :=
  if L < buffer.length then
    match evalCandidate buffer masses params L with
    | CandOutcome.notAccepted e => some e
    | _ => none
  else none

lemma evalCandidate_accepted_iff (buffer : List (List WState))
    (masses : List ℝ) (params : WParams) (L : ℕ) :
    (∃ e, evalCandidate buffer masses params L = CandOutcome.accepted e) ↔
    ((candTrajectory buffer masses params L).length ≠ 0 ∧
     scoreLeb (candBase buffer masses params L).1
       PRE_OPTIMIZATION_THRESHOLD = true ∧
     scoreLeb (candOpt buffer masses params L).score
       POST_OPTIMIZATION_THRESHOLD = true) := by
  unfold evalCandidate
  dsimp only
  by_cases h1 : (candTrajectory buffer masses params L).length = 0
  · simp [h1]
  · by_cases h2 : scoreLeb (candBase buffer masses params L).1
        PRE_OPTIMIZATION_THRESHOLD = true
    · by_cases h3 : scoreLeb (candOpt buffer masses params L).score
          POST_OPTIMIZATION_THRESHOLD = true
      · simp [h1, h2, h3]
      · simp [h1, h2, h3]
    · simp [h1, h2]

lemma evalCandidate_accepted_launchFrame (buffer : List (List WState))
    (masses : List ℝ) (params : WParams) (L : ℕ) (e : BatchEntry)
    (he : evalCandidate buffer masses params L = CandOutcome.accepted e) :
    e.launchFrame = L := by
  unfold evalCandidate at he
  dsimp only at he
  by_cases h1 : (candTrajectory buffer masses params L).length = 0
  · rw [if_pos h1] at he
    simp at he
  · rw [if_neg h1] at he
    by_cases h2 : scoreLeb (candBase buffer masses params L).1
        PRE_OPTIMIZATION_THRESHOLD = true
    · rw [if_pos h2] at he
      by_cases h3 : scoreLeb (candOpt buffer masses params L).score
          POST_OPTIMIZATION_THRESHOLD = true
      · rw [if_pos h3] at he
        injection he with he2
        rw [← he2]
      · rw [if_neg h3] at he
        simp at he
    · rw [if_neg h2] at he
      simp at he

lemma evalCandidate_notAccepted_flag (buffer : List (List WState))
    (masses : List ℝ) (params : WParams) (L : ℕ) (e : BatchEntry)
    (he : evalCandidate buffer masses params L = CandOutcome.notAccepted e) :
    e.acceptable = false := by
  unfold evalCandidate at he
  dsimp only at he
  by_cases h1 : (candTrajectory buffer masses params L).length = 0
  · rw [if_pos h1] at he
    simp at he
  · rw [if_neg h1] at he
    by_cases h2 : scoreLeb (candBase buffer masses params L).1
        PRE_OPTIMIZATION_THRESHOLD = true
    · rw [if_pos h2] at he
      by_cases h3 : scoreLeb (candOpt buffer masses params L).score
          POST_OPTIMIZATION_THRESHOLD = true
      · rw [if_pos h3] at he
        simp at he
      · rw [if_neg h3] at he
        injection he with he2
        rw [← he2]
    · rw [if_neg h2] at he
      injection he with he2
      rw [← he2]

lemma foldl_batchStep_fst (buffer : List (List WState)) (masses : List ℝ)
    (params : WParams) :
    ∀ (range : List ℕ) (st : List BatchEntry × Option BatchEntry),
    (range.foldl (batchStep buffer masses params) st).1 =
      st.1 ++ range.filterMap (acceptedAt buffer masses params) := by
  intro range
  induction range with
  | nil => intro st; simp
  | cons L rs ih =>
    intro st
    rw [List.foldl_cons, ih]
    by_cases hL : L < buffer.length
    · cases hev : evalCandidate buffer masses params L <;>
        simp [batchStep, acceptedAt, hev, hL, List.filterMap_cons]
    · simp [batchStep, acceptedAt, hL, List.filterMap_cons]

lemma foldl_batchStep_snd (buffer : List (List WState)) (masses : List ℝ)
    (params : WParams) :
    ∀ (range : List ℕ) (st : List BatchEntry × Option BatchEntry),
    (range.foldl (batchStep buffer masses params) st).2 =
      (range.filterMap (fallbackAt buffer masses params)).foldl bnaUpdate
        st.2 := by
  intro range
  induction range with
  | nil => intro st; simp
  | cons L rs ih =>
    intro st
    rw [List.foldl_cons, ih]
    by_cases hL : L < buffer.length
    · cases hev : evalCandidate buffer masses params L <;>
        simp [batchStep, fallbackAt, hev, hL, List.filterMap_cons]
    · simp [batchStep, fallbackAt, hL, List.filterMap_cons]

lemma scoreLe_refl (a : Option ℝ) : scoreLe a a := by
  cases a <;> simp [scoreLe]

lemma scoreLe_trans {a b c : Option ℝ} (h1 : scoreLe a b)
    (h2 : scoreLe b c) : scoreLe a c := by
  cases a <;> cases b <;> cases c <;> simp_all [scoreLe] <;> linarith

lemma scoreLtb_false_iff {a b : Option ℝ} :
    scoreLtb a b = false ↔ scoreLe b a := by
  cases a <;> cases b <;> simp [scoreLtb, scoreLe, not_lt]

lemma scoreLtb_true_le {a b : Option ℝ} (h : scoreLtb a b = true) :
    scoreLe a b := by
  cases a <;> cases b <;> simp_all [scoreLtb, scoreLe, le_of_lt]

lemma bnaFold_spec (l : List BatchEntry) :
    ∀ (acc : Option BatchEntry) (b : BatchEntry),
      l.foldl bnaUpdate acc = some b →
      ((acc = some b ∨ b ∈ l) ∧
       (∀ a, acc = some a → scoreLe b.score a.score) ∧
       (∀ e ∈ l, scoreLe b.score e.score)) := by
  induction l with
  | nil =>
    intro acc b h
    simp only [List.foldl_nil] at h
    refine ⟨Or.inl h, ?_, ?_⟩
    · intro a ha
      rw [h] at ha
      injection ha with ha2
      rw [ha2]
      exact scoreLe_refl _
    · intro e he
      simp at he
  | cons e es ih =>
    intro acc b h
    rw [List.foldl_cons] at h
    obtain ⟨hmem, hacc, hall⟩ := ih (bnaUpdate acc e) b h
    have hupd : ∀ a, bnaUpdate acc e = some a →
        (scoreLe a.score e.score ∧ ∀ a0, acc = some a0 → scoreLe a.score a0.score) := by
      intro a ha
      cases acc with
      | none =>
        simp only [bnaUpdate] at ha
        injection ha with ha2
        subst ha2
        exact ⟨scoreLe_refl _, fun a0 h0 => by simp at h0⟩
      | some a0 =>
        simp only [bnaUpdate] at ha
        by_cases hlt : scoreLtb e.score a0.score = true
        · rw [if_pos hlt] at ha
          injection ha with ha2
          subst ha2
          exact ⟨scoreLe_refl _,
            fun a1 h1 => by
              injection h1 with h2
              rw [← h2]
              exact scoreLtb_true_le hlt⟩
        · rw [if_neg hlt] at ha
          injection ha with ha2
          subst ha2
          refine ⟨?_, fun a1 h1 => by
            injection h1 with h2
            rw [← h2]
            exact scoreLe_refl _⟩
          exact scoreLtb_false_iff.mp (by simpa using hlt)
    have hsome : ∃ a, bnaUpdate acc e = some a := by
      cases acc with
      | none => exact ⟨e, rfl⟩
      | some a0 =>
        simp only [bnaUpdate]
        by_cases hlt : scoreLtb e.score a0.score = true
        · exact ⟨e, by rw [if_pos hlt]⟩
        · exact ⟨a0, by rw [if_neg hlt]⟩
    obtain ⟨a, ha⟩ := hsome
    have hba : scoreLe b.score a.score := hacc a ha
    obtain ⟨hae, haprev⟩ := hupd a ha
    refine ⟨?_, ?_, ?_⟩
    · rcases hmem with hl | hr
      · rw [ha] at hl
        injection hl with h2
        subst h2
        cases acc with
        | none =>
          simp only [bnaUpdate] at ha
          injection ha with h3
          exact Or.inr (by rw [h3]; exact List.mem_cons_self _ _)
        | some a0 =>
          simp only [bnaUpdate] at ha
          by_cases hlt : scoreLtb e.score a0.score = true
          · rw [if_pos hlt] at ha
            injection ha with h3
            exact Or.inr (by rw [h3]; exact List.mem_cons_self _ _)
          · rw [if_neg hlt] at ha
            injection ha with h3
            exact Or.inl (by rw [h3])
      · exact Or.inr (List.mem_cons_of_mem _ hr)
    · intro a0 h0
      exact scoreLe_trans hba (haprev a0 h0)
    · intro x hx
      rcases List.mem_cons.mp hx with rfl | hx
      · exact scoreLe_trans hba hae
      · exact hall x hx

/-- C4: a candidate appears among the batch's acceptable results exactly when
it is in range, its base trajectory is nonempty, its base (no-correction)
score is `≤ PRE_OPT_THRESHOLD = 20` (which is also exactly when the
correction optimizer runs), and the optimizer's corrected score is
`≤ POST_OPT_THRESHOLD = 5`.  Every other evaluated candidate is at most
retained as `bestNonAcceptable`: the fallback, when present, is one of the
not-accepted candidates, is flagged not acceptable, and its score is `≤`
every not-accepted candidate's score. -/
theorem processBatch_classification (buffer : List (List WState))
    (masses : List ℝ) (params : WParams) (frameStart frameEnd : ℕ) :
    (∀ L : ℕ,
      (∃ e ∈ (processBatch buffer masses params frameStart frameEnd).1,
        e.launchFrame = L) ↔
      (frameStart ≤ L ∧ L < frameEnd ∧ L < buffer.length ∧
       (candTrajectory buffer masses params L).length ≠ 0 ∧
       scoreLeb (candBase buffer masses params L).1
         PRE_OPTIMIZATION_THRESHOLD = true ∧
       scoreLeb (candOpt buffer masses params L).score
         POST_OPTIMIZATION_THRESHOLD = true)) ∧
    (∀ b, (processBatch buffer masses params frameStart frameEnd).2 = some b →
      b.acceptable = false ∧
      (∃ L, frameStart ≤ L ∧ L < frameEnd ∧ L < buffer.length ∧
        evalCandidate buffer masses params L = CandOutcome.notAccepted b) ∧
      (∀ L e, frameStart ≤ L → L < frameEnd → L < buffer.length →
        evalCandidate buffer masses params L = CandOutcome.notAccepted e →
        scoreLe b.score e.score)) := by
  have hfst := foldl_batchStep_fst buffer masses params
    (List.range' frameStart (frameEnd - frameStart)) ([], none)
  have hsnd := foldl_batchStep_snd buffer masses params
    (List.range' frameStart (frameEnd - frameStart)) ([], none)
  have hrange : ∀ L : ℕ,
      L ∈ List.range' frameStart (frameEnd - frameStart) ↔
      frameStart ≤ L ∧ L < frameEnd := by
    intro L
    rw [List.mem_range'_1]
    omega
  constructor
  · intro L
    constructor
    · rintro ⟨e, he, rfl⟩
      rw [processBatch, hfst] at he
      simp only [List.nil_append] at he
      rw [List.mem_filterMap] at he
      obtain ⟨L', hL', hsome⟩ := he
      unfold acceptedAt at hsome
      by_cases hb : L' < buffer.length
      · rw [if_pos hb] at hsome
        cases hev : evalCandidate buffer masses params L' <;>
          rw [hev] at hsome <;> try simp at hsome
        subst hsome
        have hLF := evalCandidate_accepted_launchFrame buffer masses params
          L' _ hev
        rw [hLF]
        obtain ⟨hr1, hr2⟩ := (hrange L').mp hL'
        refine ⟨hr1, hr2, hb, ?_⟩
        exact ((evalCandidate_accepted_iff buffer masses params L').mp
          ⟨_, hev⟩)
      · rw [if_neg hb] at hsome
        simp at hsome
    · rintro ⟨h1, h2, h3, h4, h5, h6⟩
      obtain ⟨e, hev⟩ := (evalCandidate_accepted_iff buffer masses params
        L).mpr ⟨h4, h5, h6⟩
      refine ⟨e, ?_, evalCandidate_accepted_launchFrame buffer masses params
        L e hev⟩
      rw [processBatch, hfst]
      simp only [List.nil_append]
      rw [List.mem_filterMap]
      refine ⟨L, (hrange L).mpr ⟨h1, h2⟩, ?_⟩
      unfold acceptedAt
      rw [if_pos h3, hev]
  · intro b hb
    rw [processBatch, hsnd] at hb
    obtain ⟨hmem, _, hall⟩ := bnaFold_spec _ none b hb
    rcases hmem with hn | hm
    · simp at hn
    · rw [List.mem_filterMap] at hm
      obtain ⟨L, hL, hsome⟩ := hm
      unfold fallbackAt at hsome
      by_cases hbl : L < buffer.length
      · rw [if_pos hbl] at hsome
        cases hev : evalCandidate buffer masses params L <;>
          rw [hev] at hsome <;> try simp at hsome
        subst hsome
        obtain ⟨hr1, hr2⟩ := (hrange L).mp hL
        refine ⟨evalCandidate_notAccepted_flag buffer masses params L _ hev,
          ⟨L, hr1, hr2, hbl, hev⟩, ?_⟩
        intro L' e hL1 hL2 hL3 hev'
        apply hall
        rw [List.mem_filterMap]
        refine ⟨L', (hrange L').mpr ⟨hL1, hL2⟩, ?_⟩
        unfold fallbackAt
        rw [if_pos hL3, hev']
      · rw [if_neg hbl] at hsome
        simp at hsome

/-! ### The correction-burn coordinate descent (claim C8) -/

/-- No probe of the descent improves on the state's best corrected score:
neither `angle ± ANGLE_STEP` (at the current duration) nor the clamped
`duration ± 1` (at the current angle, when the clamp moves it). -/
noncomputable def localOpt (buffer : List (List WState)) (masses : List ℝ)
    (p : OptParams) (corrStart : ℕ) (st : OptState) : Prop :=
  scoreLtb (corrScoreAt buffer masses p corrStart st.duration
    (st.angle - ANGLE_STEP)).1 st.bestScore = false ∧
  scoreLtb (corrScoreAt buffer masses p corrStart st.duration
    (st.angle + ANGLE_STEP)).1 st.bestScore = false ∧
  (clampDuration st.duration (-1) ≠ st.duration →
    scoreLtb (corrScoreAt buffer masses p corrStart
      (clampDuration st.duration (-1)) st.angle).1 st.bestScore = false) ∧
  (clampDuration st.duration 1 ≠ st.duration →
    scoreLtb (corrScoreAt buffer masses p corrStart
      (clampDuration st.duration 1) st.angle).1 st.bestScore = false)

lemma tryAngle_hit {buffer masses p corrStart} {st : OptState} {a : ℝ}
    (hc : scoreLtb (corrScoreAt buffer masses p corrStart st.duration a).1
      st.bestScore = true) :
    (tryAngle buffer masses p corrStart st a).improved = true := by
  unfold tryAngle
  dsimp only
  rw [if_pos hc]

lemma tryAngle_improved {buffer masses p corrStart} {st : OptState} {a : ℝ}
    (h : st.improved = true) :
    (tryAngle buffer masses p corrStart st a).improved = true := by
  unfold tryAngle
  dsimp only
  split <;> simp [h]

lemma tryDuration_improved {buffer masses p corrStart} {st : OptState}
    {d : ℤ} (h : st.improved = true) :
    (tryDuration buffer masses p corrStart st d).improved = true := by
  unfold tryDuration
  dsimp only
  split
  · exact h
  · split <;> simp [h]

lemma tryAngle_stuck {buffer masses p corrStart} {st : OptState} {a : ℝ}
    (hc : scoreLtb (corrScoreAt buffer masses p corrStart st.duration a).1
      st.bestScore = false) :
    tryAngle buffer masses p corrStart st a = st := by
  unfold tryAngle
  dsimp only
  rw [if_neg (by simp [hc])]

lemma tryDuration_same {buffer masses p corrStart} {st : OptState} {d : ℤ}
    (hd : clampDuration st.duration d = st.duration) :
    tryDuration buffer masses p corrStart st d = st := by
  unfold tryDuration
  dsimp only
  rw [if_pos hd]

lemma tryDuration_stuck {buffer masses p corrStart} {st : OptState} {d : ℤ}
    (hc : scoreLtb (corrScoreAt buffer masses p corrStart
      (clampDuration st.duration d) st.angle).1 st.bestScore = false) :
    tryDuration buffer masses p corrStart st d = st := by
  unfold tryDuration
  dsimp only
  split
  · rfl
  · rw [if_neg (by simp [hc])]

lemma tryAngle_score_le {buffer masses p corrStart} (st : OptState) (a : ℝ) :
    scoreLe (tryAngle buffer masses p corrStart st a).bestScore
      st.bestScore := by
  unfold tryAngle
  dsimp only
  split
  · exact scoreLtb_true_le (by assumption)
  · exact scoreLe_refl _

lemma tryDuration_score_le {buffer masses p corrStart} (st : OptState)
    (d : ℤ) :
    scoreLe (tryDuration buffer masses p corrStart st d).bestScore
      st.bestScore := by
  unfold tryDuration
  dsimp only
  split
  · exact scoreLe_refl _
  · split
    · exact scoreLtb_true_le (by assumption)
    · exact scoreLe_refl _

lemma optIter_score_le {buffer masses p corrStart} (st : OptState) :
    scoreLe (optIter buffer masses p corrStart st).bestScore
      st.bestScore := by
  unfold optIter
  dsimp only
  exact scoreLe_trans (tryDuration_score_le _ _)
    (scoreLe_trans (tryDuration_score_le _ _)
      (scoreLe_trans (tryAngle_score_le _ _) (tryAngle_score_le _ _)))

lemma optLoop_score_le {buffer masses p corrStart} :
    ∀ (fuel : ℕ) (st : OptState),
    scoreLe ((optLoop buffer masses p corrStart fuel st).1).bestScore
      st.bestScore := by
  intro fuel
  induction fuel with
  | zero => intro st; exact scoreLe_refl _
  | succ n ih =>
    intro st
    unfold optLoop
    dsimp only
    split
    · exact scoreLe_trans (ih _) (optIter_score_le st)
    · exact scoreLe_refl _

lemma clampDuration_le (d : ℕ) (delta : ℤ) :
    clampDuration d delta ≤ MAX_DURATION := by
  unfold clampDuration
  omega

lemma tryAngle_duration {buffer masses p corrStart} (st : OptState) (a : ℝ) :
    (tryAngle buffer masses p corrStart st a).duration = st.duration := by
  unfold tryAngle
  dsimp only
  split <;> rfl

lemma tryDuration_duration_le {buffer masses p corrStart} (st : OptState)
    (d : ℤ) (h : st.duration ≤ MAX_DURATION) :
    (tryDuration buffer masses p corrStart st d).duration ≤ MAX_DURATION := by
  unfold tryDuration
  dsimp only
  split
  · exact h
  · split
    · exact clampDuration_le _ _
    · exact h

lemma optIter_duration_le {buffer masses p corrStart} (st : OptState)
    (h : st.duration ≤ MAX_DURATION) :
    (optIter buffer masses p corrStart st).duration ≤ MAX_DURATION := by
  unfold optIter
  dsimp only
  apply tryDuration_duration_le
  apply tryDuration_duration_le
  rw [tryAngle_duration, tryAngle_duration]
  exact h

lemma optLoop_duration_le {buffer masses p corrStart} :
    ∀ (fuel : ℕ) (st : OptState), st.duration ≤ MAX_DURATION →
    ((optLoop buffer masses p corrStart fuel st).1).duration ≤
      MAX_DURATION := by
  intro fuel
  induction fuel with
  | zero => intro st h; exact h
  | succ n ih =>
    intro st h
    unfold optLoop
    dsimp only
    split
    · exact ih _ (optIter_duration_le st h)
    · exact h

lemma optLoop_count_le {buffer masses p corrStart} :
    ∀ (fuel : ℕ) (st : OptState),
    (optLoop buffer masses p corrStart fuel st).2 ≤ fuel := by
  intro fuel
  induction fuel with
  | zero => intro st; simp [optLoop]
  | succ n ih =>
    intro st
    unfold optLoop
    dsimp only
    split
    · simpa using Nat.succ_le_succ (ih _)
    · simp

lemma optLoop_stall {buffer masses p corrStart} (fuel : ℕ) (st : OptState)
    (h : st.improved = false) :
    optLoop buffer masses p corrStart fuel st = (st, 0) := by
  cases fuel <;> simp [optLoop, h]

lemma optIter_exit {buffer masses p corrStart} (st : OptState)
    (h : (optIter buffer masses p corrStart st).improved = false) :
    optIter buffer masses p corrStart st = { st with improved := false } ∧
    localOpt buffer masses p corrStart { st with improved := false } := by
  by_cases c1 : scoreLtb (corrScoreAt buffer masses p corrStart st.duration
      (st.angle - ANGLE_STEP)).1 st.bestScore = true
  · exfalso
    have : (optIter buffer masses p corrStart st).improved = true := by
      unfold optIter
      dsimp only
      exact tryDuration_improved (tryDuration_improved
        (tryAngle_improved (tryAngle_hit c1)))
    rw [h] at this
    exact Bool.false_ne_true this
  · have c1' : scoreLtb (corrScoreAt buffer masses p corrStart st.duration
        (st.angle - ANGLE_STEP)).1 st.bestScore = false := by
      revert c1
      cases scoreLtb (corrScoreAt buffer masses p corrStart st.duration
        (st.angle - ANGLE_STEP)).1 st.bestScore <;> simp
    have e1 : tryAngle buffer masses p corrStart
        { st with improved := false } (st.angle - ANGLE_STEP) =
        { st with improved := false } := tryAngle_stuck c1'
    by_cases c2 : scoreLtb (corrScoreAt buffer masses p corrStart st.duration
        (st.angle + ANGLE_STEP)).1 st.bestScore = true
    · exfalso
      have : (optIter buffer masses p corrStart st).improved = true := by
        unfold optIter
        dsimp only
        rw [e1]
        exact tryDuration_improved (tryDuration_improved (tryAngle_hit c2))
      rw [h] at this
      exact Bool.false_ne_true this
    · have c2' : scoreLtb (corrScoreAt buffer masses p corrStart st.duration
          (st.angle + ANGLE_STEP)).1 st.bestScore = false := by
        revert c2
        cases scoreLtb (corrScoreAt buffer masses p corrStart st.duration
          (st.angle + ANGLE_STEP)).1 st.bestScore <;> simp
      have e2 : tryAngle buffer masses p corrStart
          { st with improved := false } (st.angle + ANGLE_STEP) =
          { st with improved := false } := tryAngle_stuck c2'
      by_cases d3 : clampDuration st.duration (-1) = st.duration
      · have e3 : tryDuration buffer masses p corrStart
            { st with improved := false } (-1) =
            { st with improved := false } := tryDuration_same d3
        by_cases c4 : clampDuration st.duration 1 = st.duration
        · have e4 : tryDuration buffer masses p corrStart
              { st with improved := false } 1 =
              { st with improved := false } := tryDuration_same c4
          refine ⟨?_, ?_⟩
          · unfold optIter
            dsimp only
            rw [e1, e2, e3, e4]
          · exact ⟨c1', c2', fun hne => absurd d3 hne, fun hne => absurd c4 hne⟩
        · by_cases c4s : scoreLtb (corrScoreAt buffer masses p corrStart
              (clampDuration st.duration 1) st.angle).1 st.bestScore = true
          · exfalso
            have : (optIter buffer masses p corrStart st).improved = true := by
              unfold optIter
              dsimp only
              rw [e1, e2, e3]
              unfold tryDuration
              dsimp only
              rw [if_neg c4, if_pos c4s]
            rw [h] at this
            exact Bool.false_ne_true this
          · have c4' : scoreLtb (corrScoreAt buffer masses p corrStart
                (clampDuration st.duration 1) st.angle).1 st.bestScore =
                false := by
              revert c4s
              cases scoreLtb (corrScoreAt buffer masses p corrStart
                (clampDuration st.duration 1) st.angle).1 st.bestScore <;> simp
            have e4 : tryDuration buffer masses p corrStart
                { st with improved := false } 1 =
                { st with improved := false } := tryDuration_stuck c4'
            refine ⟨?_, ?_⟩
            · unfold optIter
              dsimp only
              rw [e1, e2, e3, e4]
            · exact ⟨c1', c2', fun hne => absurd d3 hne, fun _ => c4'⟩
      · by_cases c3s : scoreLtb (corrScoreAt buffer masses p corrStart
            (clampDuration st.duration (-1)) st.angle).1 st.bestScore = true
        · exfalso
          have : (optIter buffer masses p corrStart st).improved = true := by
            unfold optIter
            dsimp only
            rw [e1, e2]
            apply tryDuration_improved
            unfold tryDuration
            dsimp only
            rw [if_neg d3, if_pos c3s]
          rw [h] at this
          exact Bool.false_ne_true this
        · have c3' : scoreLtb (corrScoreAt buffer masses p corrStart
              (clampDuration st.duration (-1)) st.angle).1 st.bestScore =
              false := by
            revert c3s
            cases scoreLtb (corrScoreAt buffer masses p corrStart
              (clampDuration st.duration (-1)) st.angle).1 st.bestScore <;>
              simp
          have e3 : tryDuration buffer masses p corrStart
              { st with improved := false } (-1) =
              { st with improved := false } := tryDuration_stuck c3'
          by_cases c4 : clampDuration st.duration 1 = st.duration
          · have e4 : tryDuration buffer masses p corrStart
                { st with improved := false } 1 =
                { st with improved := false } := tryDuration_same c4
            refine ⟨?_, ?_⟩
            · unfold optIter
              dsimp only
              rw [e1, e2, e3, e4]
            · exact ⟨c1', c2', fun _ => c3', fun hne => absurd c4 hne⟩
          · by_cases c4s : scoreLtb (corrScoreAt buffer masses p corrStart
                (clampDuration st.duration 1) st.angle).1 st.bestScore = true
            · exfalso
              have : (optIter buffer masses p corrStart st).improved =
                  true := by
                unfold optIter
                dsimp only
                rw [e1, e2, e3]
                unfold tryDuration
                dsimp only
                rw [if_neg c4, if_pos c4s]
              rw [h] at this
              exact Bool.false_ne_true this
            · have c4' : scoreLtb (corrScoreAt buffer masses p corrStart
                  (clampDuration st.duration 1) st.angle).1 st.bestScore =
                  false := by
                revert c4s
                cases scoreLtb (corrScoreAt buffer masses p corrStart
                  (clampDuration st.duration 1) st.angle).1 st.bestScore <;>
                  simp
              have e4 : tryDuration buffer masses p corrStart
                  { st with improved := false } 1 =
                  { st with improved := false } := tryDuration_stuck c4'
              refine ⟨?_, ?_⟩
              · unfold optIter
                dsimp only
                rw [e1, e2, e3, e4]
              · exact ⟨c1', c2', fun _ => c3', fun _ => c4'⟩

lemma optLoop_exit {buffer masses p corrStart} :
    ∀ (fuel : ℕ) (st : OptState), st.improved = true →
    ((optLoop buffer masses p corrStart fuel st).1).improved = false →
    localOpt buffer masses p corrStart
      (optLoop buffer masses p corrStart fuel st).1 := by
  intro fuel
  induction fuel with
  | zero =>
    intro st h1 h2
    simp only [optLoop] at h2
    rw [h1] at h2
    exact absurd h2 (by simp)
  | succ n ih =>
    intro st h1 h2
    simp only [optLoop, if_pos h1] at h2 ⊢
    by_cases hi : (optIter buffer masses p corrStart st).improved = true
    · exact ih _ hi h2
    · have hif : (optIter buffer masses p corrStart st).improved = false := by
        revert hi
        cases (optIter buffer masses p corrStart st).improved <;> simp
      obtain ⟨heq, hlo⟩ := optIter_exit st hif
      rw [optLoop_stall n _ hif]
      rw [heq]
      exact hlo

/-- C8: for a candidate whose optimizer runs (the no-correction probe
captures a velocity `vel` at the burn start `⌊ins·2/3⌋`), the coordinate
descent starts from `duration = 1` and `angle = π + atan2(vel)` — the
returned score never exceeds that initial configuration's corrected score
(only score-lowering changes are accepted) — keeps the duration within
`[0, MAX_DURATION = ⌈10s/dt⌉ = 304]`, performs at most
`MAX_ITERATIONS = 10000` iterations, and, when it stops with no improvement
pending, no probe (`angle ± 0.1°`, clamped `duration ± 1`) beats the final
best score. -/
theorem optimizeCorrectionBoost_behavior (buffer : List (List WState))
    (masses : List ℝ) (p : OptParams) (ins : ℕ) (vel : ℝ × ℝ)
    (hvel : (simulateTrajectoryWithCorrection buffer masses p.startFrame
      p.sourceBodyIndex p.orbitRadius p.orbitalSpeed p.futureAngle
      p.escapeVelocity (ins * 2 / 3) 0 0 p.orbitalDirection).2 = some vel) :
    (optimizeCorrectionBoost buffer masses p ins).startFrame = ins * 2 / 3 ∧
    (optimizeCorrectionBoost buffer masses p ins).duration ≤ MAX_DURATION ∧
    scoreLe (optimizeCorrectionBoost buffer masses p ins).score
      (corrScoreAt buffer masses p (ins * 2 / 3) 1
        (atan2 vel.2 vel.1 + Real.pi)).1 ∧
    (∀ st : OptState, scoreLe
      (optIter buffer masses p (ins * 2 / 3) st).bestScore st.bestScore) ∧
    (optLoop buffer masses p (ins * 2 / 3) MAX_ITERATIONS
      ⟨atan2 vel.2 vel.1 + Real.pi, 1,
       (corrScoreAt buffer masses p (ins * 2 / 3) 1
         (atan2 vel.2 vel.1 + Real.pi)).1,
       corrTrajAt buffer masses p (ins * 2 / 3) 1
         (atan2 vel.2 vel.1 + Real.pi), true⟩).2 ≤ MAX_ITERATIONS ∧
    (((optLoop buffer masses p (ins * 2 / 3) MAX_ITERATIONS
      ⟨atan2 vel.2 vel.1 + Real.pi, 1,
       (corrScoreAt buffer masses p (ins * 2 / 3) 1
         (atan2 vel.2 vel.1 + Real.pi)).1,
       corrTrajAt buffer masses p (ins * 2 / 3) 1
         (atan2 vel.2 vel.1 + Real.pi), true⟩).1).improved = false →
      localOpt buffer masses p (ins * 2 / 3)
        (optLoop buffer masses p (ins * 2 / 3) MAX_ITERATIONS
          ⟨atan2 vel.2 vel.1 + Real.pi, 1,
           (corrScoreAt buffer masses p (ins * 2 / 3) 1
             (atan2 vel.2 vel.1 + Real.pi)).1,
           corrTrajAt buffer masses p (ins * 2 / 3) 1
             (atan2 vel.2 vel.1 + Real.pi), true⟩).1) := by
  unfold optimizeCorrectionBoost
  dsimp only
  rw [hvel]
  dsimp only
  refine ⟨rfl, ?_, ?_, ?_, ?_, ?_⟩
  · apply optLoop_duration_le
    show (1 : ℕ) ≤ MAX_DURATION
    rw [MAX_DURATION_eq]
    omega
  · exact optLoop_score_le MAX_ITERATIONS _
  · intro st
    exact optIter_score_le st
  · exact optLoop_count_le MAX_ITERATIONS _
  · intro hexit
    exact optLoop_exit MAX_ITERATIONS _ rfl hexit

/-- Witness for `optimizeCorrectionBoost_behavior`: a one-frame snapshot with
a single massless body at the origin, the craft launched at rest
(`orbitRadius = orbitalSpeed = 0`), so the no-correction probe captures the
velocity `(0, 0)` at burn start `0`. -/
theorem optimizeCorrectionBoost_behavior_witness :
    (simulateTrajectoryWithCorrection [[⟨0, 0, 0, 0⟩]] [0] 0 0 0 0 0 0 0 0 0
      1).2 = some ((0 : ℝ), (0 : ℝ)) ∧
    ((optimizeCorrectionBoost [[⟨0, 0, 0, 0⟩]] [0] ⟨0, 0, 0, 0, 0, 0, 0, 0, 1⟩
        0).startFrame = 0 * 2 / 3 ∧
     (optimizeCorrectionBoost [[⟨0, 0, 0, 0⟩]] [0] ⟨0, 0, 0, 0, 0, 0, 0, 0, 1⟩
        0).duration ≤ MAX_DURATION ∧
     scoreLe (optimizeCorrectionBoost [[⟨0, 0, 0, 0⟩]] [0]
        ⟨0, 0, 0, 0, 0, 0, 0, 0, 1⟩ 0).score
       (corrScoreAt [[⟨0, 0, 0, 0⟩]] [0] ⟨0, 0, 0, 0, 0, 0, 0, 0, 1⟩
         (0 * 2 / 3) 1 (atan2 0 0 + Real.pi)).1 ∧
     (∀ st : OptState, scoreLe
       (optIter [[⟨0, 0, 0, 0⟩]] [0] ⟨0, 0, 0, 0, 0, 0, 0, 0, 1⟩ (0 * 2 / 3)
         st).bestScore st.bestScore) ∧
     (optLoop [[⟨0, 0, 0, 0⟩]] [0] ⟨0, 0, 0, 0, 0, 0, 0, 0, 1⟩ (0 * 2 / 3)
       MAX_ITERATIONS
       ⟨atan2 0 0 + Real.pi, 1,
        (corrScoreAt [[⟨0, 0, 0, 0⟩]] [0] ⟨0, 0, 0, 0, 0, 0, 0, 0, 1⟩
          (0 * 2 / 3) 1 (atan2 0 0 + Real.pi)).1,
        corrTrajAt [[⟨0, 0, 0, 0⟩]] [0] ⟨0, 0, 0, 0, 0, 0, 0, 0, 1⟩
          (0 * 2 / 3) 1 (atan2 0 0 + Real.pi), true⟩).2 ≤ MAX_ITERATIONS ∧
     (((optLoop [[⟨0, 0, 0, 0⟩]] [0] ⟨0, 0, 0, 0, 0, 0, 0, 0, 1⟩ (0 * 2 / 3)
       MAX_ITERATIONS
       ⟨atan2 0 0 + Real.pi, 1,
        (corrScoreAt [[⟨0, 0, 0, 0⟩]] [0] ⟨0, 0, 0, 0, 0, 0, 0, 0, 1⟩
          (0 * 2 / 3) 1 (atan2 0 0 + Real.pi)).1,
        corrTrajAt [[⟨0, 0, 0, 0⟩]] [0] ⟨0, 0, 0, 0, 0, 0, 0, 0, 1⟩
          (0 * 2 / 3) 1 (atan2 0 0 + Real.pi), true⟩).1).improved = false →
       localOpt [[⟨0, 0, 0, 0⟩]] [0] ⟨0, 0, 0, 0, 0, 0, 0, 0, 1⟩ (0 * 2 / 3)
         (optLoop [[⟨0, 0, 0, 0⟩]] [0] ⟨0, 0, 0, 0, 0, 0, 0, 0, 1⟩
           (0 * 2 / 3) MAX_ITERATIONS
           ⟨atan2 0 0 + Real.pi, 1,
            (corrScoreAt [[⟨0, 0, 0, 0⟩]] [0] ⟨0, 0, 0, 0, 0, 0, 0, 0, 1⟩
              (0 * 2 / 3) 1 (atan2 0 0 + Real.pi)).1,
            corrTrajAt [[⟨0, 0, 0, 0⟩]] [0] ⟨0, 0, 0, 0, 0, 0, 0, 0, 1⟩
              (0 * 2 / 3) 1 (atan2 0 0 + Real.pi), true⟩).1)) := by
  have hvel : (simulateTrajectoryWithCorrection [[⟨0, 0, 0, 0⟩]] [0] 0 0 0 0 0
      0 0 0 0 1).2 = some ((0 : ℝ), (0 : ℝ)) := by
    norm_num [simulateTrajectoryWithCorrection, simCorrAux, launchState,
      List.getD]
  exact ⟨hvel, optimizeCorrectionBoost_behavior [[⟨0, 0, 0, 0⟩]] [0]
    ⟨0, 0, 0, 0, 0, 0, 0, 0, 1⟩ 0 (0, 0) hvel⟩

end Sling
